import Mathlib

/-
Verification of the slot allocation engine of the x-panel-configurator-lite
backend (src/backend/routers/devices.py), against its natural-language
specification.

The embedding models the panel_slots table as a list of Slot records and the
device catalog as a list of DeviceType records.  The three engine operations
are translated from src/backend/routers/devices.py:

  can_place_device_at_slot  (devices.py lines 33-75)
  update_panel_slot         (devices.py lines 77-135)
  remove_device_from_slot   (devices.py lines 137-177)

Modelling conventions:
  - SQLAlchemy queries filter(...).first() become first-match list searches;
    order_by(column) becomes a stable insertion sort by the column field.
  - Slot ids are primary keys, hence unique; object-identity mutation of the
    ORM session is rendered as an id-gated map over the slot list.  Theorems
    that depend on this carry an explicit Nodup hypothesis on the id column.
  - Float columns (current_setting) and datetime columns (installed_date) are
    opaque to the engine; they are modelled as Int and Nat payloads.
  - Pydantic dict(exclude_unset=True) is modelled by Option payload fields:
    none = field absent, some v = field provided with value v.
  - The legacy naming split between "device type" and "device template" is a
    schema-evolution artifact (spec section 9); the model uses one catalog
    record type (DeviceType, as named in devices.py) carrying the opaque id
    and the slots_required width, the only fields the engine reads.
  - Each operation returns the new table state together with an Except value:
    a raised HTTPException becomes .error (the transaction is not committed,
    so the returned state is the untouched input), a 2xx return becomes .ok.
-/

/-- One row of the panel_slots table (src/backend/models.py, class PanelSlot).
Fields the engine never reads or writes (relationships, timestamps other than
installed_date) are omitted. -/
structure Slot where
  id : Nat
  panel_id : Nat
  slot_number : Nat
  row : Nat
  column : Nat
  device_type_id : Option Nat
  device_label : Option String
  current_setting : Option Int
  custom_properties : Option String
  is_occupied : Bool
  spans_slots : Nat
  installed_date : Option Nat
  deriving DecidableEq

/-- One row of the device catalog.  The engine reads only the id and the
slots_required width (devices.py lines 40-44); the other catalog columns
(name, manufacturer, ratings, ...) never influence placement and are
omitted. -/
structure DeviceType where
  id : Nat
  slots_required : Nat
  deriving DecidableEq

/-- The PanelSlotUpdate request schema (src/backend/schemas.py lines 166-172).
none models a field absent from the request body (exclude_unset). -/
structure PanelSlotUpdate where
  device_type_id : Option Nat := none
  device_label : Option String := none
  current_setting : Option Int := none
  custom_properties : Option String := none
  spans_slots : Option Nat := none
  installed_date : Option Nat := none
  deriving DecidableEq

/-- The typed failures the two endpoints can raise: 404 for a missing slot,
404 for a missing device type, and the 400 placement rejection whose detail
text reads "Cannot place device at this slot - not enough consecutive free
slots". -/
inductive Err where
  | slotNotFound
  | deviceTypeNotFound
  | cannotPlace
  deriving DecidableEq

/-- Apply a provided payload field over the current column value: setattr is
executed only for fields present in dict(exclude_unset=True). -/
def setOpt {α : Type} (new old : Option α) : Option α :=
  match new with
  | some v => some v
  | none => old

/-- The five column writes shared by both clearing loops of
remove_device_from_slot (devices.py lines 163-167 and 170-174). -/
def clearSlotFields (s : Slot) : Slot :=
  { s with device_type_id := none, device_label := none, current_setting := none,
           is_occupied := false, spans_slots := 1 }

/-- The setattr loop of update_panel_slot (devices.py lines 99-101): every
field provided in the request and present on the model is copied onto the
slot. -/
def applyUpdateFields (su : PanelSlotUpdate) (s : Slot) : Slot :=
  { s with device_type_id := setOpt su.device_type_id s.device_type_id,
           device_label := setOpt su.device_label s.device_label,
           current_setting := setOpt su.current_setting s.current_setting,
           custom_properties := setOpt su.custom_properties s.custom_properties,
           spans_slots := su.spans_slots.getD s.spans_slots,
           installed_date := setOpt su.installed_date s.installed_date }

/-- The primary-slot write of update_panel_slot (devices.py lines 99-104):
the setattr loop followed by is_occupied := True and spans_slots :=
slots_required. -/
def anchorWrite (su : PanelSlotUpdate) (w : Nat) (s : Slot) : Slot :=
  { applyUpdateFields su s with is_occupied := true, spans_slots := w }

/-- The secondary-slot write of update_panel_slot (devices.py lines 124-127):
occupied, no device reference, spans_slots = 0. -/
def contWrite (s : Slot) : Slot :=
  { s with is_occupied := true, device_type_id := none, spans_slots := 0 }

/-- db.query(PanelSlot).filter(PanelSlot.id == slot_id).first() -/
def findSlot : List Slot → Nat → Option Slot
  | [], _ => none
  | s :: rest, sid => if s.id = sid then some s else findSlot rest sid

/-- db.query(DeviceType).filter(DeviceType.id == device_type_id).first() -/
def findDeviceType : List DeviceType → Nat → Option DeviceType
  | [], _ => none
  | t :: rest, tid => if t.id = tid then some t else findDeviceType rest tid

/-- The enumerate loop locating the anchor position inside the ordered row
(devices.py lines 57-61, 115-119 and 153-157): index of the first slot whose
id matches. -/
def findSlotIndex : List Slot → Nat → Option Nat
  | [], _ => none
  | s :: rest, sid =>
      if s.id = sid then some 0 else (findSlotIndex rest sid).map (· + 1)

/-- Stable insertion into a column-sorted list: a new element goes after all
existing elements of smaller or equal column. -/
def insertByColumn (s : Slot) : List Slot → List Slot
  | [] => [s]
  | t :: ts => if s.column < t.column then s :: t :: ts else t :: insertByColumn s ts

/-- order_by(PanelSlot.column): stable sort by the column field. -/
def sortByColumn (l : List Slot) : List Slot :=
  l.foldl (fun acc s => insertByColumn s acc) []

/-- db.query(PanelSlot).filter(panel_id == ..., row == ...).order_by(column):
the ordered listing of one row, re-issued by every operation that walks a
span. -/
def slotsInRow (db : List Slot) (pid r : Nat) : List Slot :=
  sortByColumn (db.filter (fun s => s.panel_id = pid ∧ s.row = r))

/-- can_place_device_at_slot (devices.py lines 33-75). -/
def can_place_device_at_slot (db : List Slot) (types : List DeviceType)
    (slot_id device_type_id : Nat) : Bool :=
  match findSlot db slot_id with
  | none => false
  | some slot =>
    match findDeviceType types device_type_id with
    | none => false
    | some device_type =>
      if device_type.slots_required = 1 then !slot.is_occupied
      else
        let panel_slots := slotsInRow db slot.panel_id slot.row
        match findSlotIndex panel_slots slot_id with
        | none => false
        | some slot_index =>
          if panel_slots.length < slot_index + device_type.slots_required then false
          else ((panel_slots.drop slot_index).take device_type.slots_required).all
                 (fun s => !s.is_occupied)

/-- remove_device_from_slot (devices.py lines 137-177).  Returns the new table
state and .ok () for the constant success message, or .error for the 404. -/
def remove_device_from_slot (db : List Slot) (slot_id : Nat) :
    List Slot × Except Err Unit :=
  match findSlot db slot_id with
  | none => (db, .error .slotNotFound)
  | some db_slot =>
    if db_slot.is_occupied ∧ 1 < db_slot.spans_slots then
      let panel_slots := slotsInRow db db_slot.panel_id db_slot.row
      match findSlotIndex panel_slots slot_id with
      | none => (db, .ok ())
      | some slot_index =>
        let ids := ((panel_slots.drop slot_index).take db_slot.spans_slots).map (·.id)
        (db.map (fun t => if t.id ∈ ids then clearSlotFields t else t), .ok ())
    else
      (db.map (fun t => if t.id = slot_id then clearSlotFields t else t), .ok ())

/-- update_panel_slot (devices.py lines 77-135).  Returns the new table state
and the refreshed primary slot on success. -/
def update_panel_slot (db : List Slot) (types : List DeviceType) (slot_id : Nat)
    (su : PanelSlotUpdate) : List Slot × Except Err Slot :=
  match findSlot db slot_id with
  | none => (db, .error .slotNotFound)
  | some db_slot =>
    match su.device_type_id with
    | some tid =>
      match findDeviceType types tid with
      | none => (db, .error .deviceTypeNotFound)
      | some device_type =>
        if ¬ can_place_device_at_slot db types slot_id tid then
          (db, .error .cannotPlace)
        else
          match remove_device_from_slot db slot_id with
          | (db1, .error e) => (db1, .error e)
          | (db1, .ok _) =>
            let db2 := db1.map (fun t =>
              if t.id = slot_id then anchorWrite su device_type.slots_required t
              else t)
            let db3 :=
              if 1 < device_type.slots_required then
                let panel_slots := slotsInRow db2 db_slot.panel_id db_slot.row
                match findSlotIndex panel_slots slot_id with
                | none => db2
                | some slot_index =>
                  let ids := ((panel_slots.drop (slot_index + 1)).take
                                (device_type.slots_required - 1)).map (·.id)
                  db2.map (fun t => if t.id ∈ ids then contWrite t else t)
              else db2
            match findSlot db3 slot_id with
            | some s3 => (db3, .ok s3)
            | none => (db3, .error .slotNotFound)
    | none =>
      match remove_device_from_slot db slot_id with
      | (db1, .error e) => (db1, .error e)
      | (db1, .ok _) =>
        match findSlot db1 slot_id with
        | some s1 => (db1, .ok s1)
        | none => (db1, .error .slotNotFound)

/-- Free normal form of a slot (spec invariant I5): unoccupied, no device
reference, all instance fields cleared, unit span. -/
def freeNormal (s : Slot) : Prop :=
  s.is_occupied = false ∧ s.device_type_id = none ∧ s.device_label = none ∧
  s.current_setting = none ∧ s.custom_properties = none ∧ s.spans_slots = 1 ∧
  s.installed_date = none

instance (s : Slot) : Decidable (freeNormal s) := by
  unfold freeNormal; infer_instance

/-- An anchor in the stored representation: occupied with a positive span
count (placement writes spans_slots := slots_required on the primary slot). -/
def isAnchorSlot (s : Slot) : Prop :=
  s.is_occupied = true ∧ 1 ≤ s.spans_slots

instance (s : Slot) : Decidable (isAnchorSlot s) := by
  unfold isAnchorSlot; infer_instance

/-- A continuation in the stored representation: occupied with
spans_slots = 0, as written by the secondary-slot loop of update_panel_slot
(devices.py line 127). -/
def isContSlot (s : Slot) : Prop :=
  s.is_occupied = true ∧ s.spans_slots = 0

instance (s : Slot) : Decidable (isContSlot s) := by
  unfold isContSlot; infer_instance

/-- The id column is a primary key: all ids distinct. -/
def idsNodup (db : List Slot) : Prop :=
  (db.map (fun s => s.id)).Nodup

instance (db : List Slot) : Decidable (idsNodup db) := by
  unfold idsNodup; infer_instance

/-- Row well-formedness: every occupied slot with positive span heads a run
that fits inside the row, and every strictly interior position of that run is
a continuation slot. -/
def SpanWF (L : List Slot) : Prop :=
  ∀ i : Fin L.length, (L.get i).is_occupied = true → 1 ≤ (L.get i).spans_slots →
    i.1 + (L.get i).spans_slots ≤ L.length ∧
    ∀ k : Fin L.length, i.1 < k.1 → k.1 < i.1 + (L.get i).spans_slots →
      (L.get k).is_occupied = true ∧ (L.get k).spans_slots = 0

/-- Dense column numbering of a row listing: the slot at position i carries
column i+1, as produced by panel seeding (src/backend/routers/panels.py
lines 38-49). -/
def DenseRow (L : List Slot) : Prop :=
  ∀ i : Fin L.length, (L.get i).column = i.1 + 1

instance (L : List Slot) : Decidable (DenseRow L) := by
  unfold DenseRow; infer_instance

/-- The no-overlap property of spec section 8: the column ranges
[column, column + width) of two distinct anchors of one row are disjoint. -/
def NoRowOverlap (L : List Slot) : Prop :=
  ∀ i j : Fin L.length, i ≠ j → isAnchorSlot (L.get i) → isAnchorSlot (L.get j) →
    (L.get i).column + (L.get i).spans_slots ≤ (L.get j).column ∨
    (L.get j).column + (L.get j).spans_slots ≤ (L.get i).column

instance (L : List Slot) : Decidable (NoRowOverlap L) := by
  unfold NoRowOverlap; infer_instance

/-- Grid well-formedness: unique ids and well-formed spans in every row. -/
def GridWF (db : List Slot) : Prop :=
  idsNodup db ∧ ∀ pid r, SpanWF (slotsInRow db pid r)

/-- A freshly seeded grid: unique ids and every slot unoccupied. -/
def SeedOK (db : List Slot) : Prop :=
  idsNodup db ∧ ∀ s ∈ db, s.is_occupied = false

instance (db : List Slot) : Decidable (SeedOK db) := by
  unfold SeedOK; infer_instance

/-- Every device template declares a width of at least one slot (spec
section 6: "an integer of at least 1"). -/
def validWidths (types : List DeviceType) : Prop :=
  ∀ t ∈ types, 1 ≤ t.slots_required

instance (types : List DeviceType) : Decidable (validWidths types) := by
  unfold validWidths; infer_instance

/-- The removal about to run on slot_id does not target a continuation slot. -/
def notContRemoval (db : List Slot) (sid : Nat) : Prop :=
  ∀ s, findSlot db sid = some s → ¬ isContSlot s

/-- States reachable from a freshly seeded grid through the two public
endpoints, where removal (directly, or through update_panel_slot with an
absent device reference) is never invoked on a continuation slot. -/
inductive Reach (types : List DeviceType) : List Slot → Prop
  | seed (db : List Slot) (h : SeedOK db) : Reach types db
  | place (db : List Slot) (sid : Nat) (su : PanelSlotUpdate) (h : Reach types db)
      (hrm : su.device_type_id = none → notContRemoval db sid) :
      Reach types (update_panel_slot db types sid su).1
  | rmv (db : List Slot) (sid : Nat) (h : Reach types db)
      (hrm : notContRemoval db sid) :
      Reach types (remove_device_from_slot db sid).1

/-- A freshly seeded free slot, as created at panel creation
(src/backend/routers/panels.py lines 41-47). -/
def mkFreeSlot (i pid sn r c : Nat) : Slot :=
  ⟨i, pid, sn, r, c, none, none, none, none, false, 1, none⟩

/-- Concrete fixture: one panel (id 1) with a single row of three free
slots. -/
def exDb : List Slot :=
  [mkFreeSlot 1 1 1 1 1, mkFreeSlot 2 1 2 1 2, mkFreeSlot 3 1 3 1 3]

/-- Concrete catalog: type 1 is three modules wide, type 2 one module, type 3
two modules. -/
def exCat : List DeviceType :=
  [⟨1, 3⟩, ⟨2, 1⟩, ⟨3, 2⟩]

/-- Request placing the width-3 device with a label and a custom property. -/
def exPlace3 : PanelSlotUpdate :=
  { device_type_id := some 1, device_label := some "main",
    custom_properties := some "x" }

/-- State after placing the width-3 device at slot 1 of the fixture. -/
def exDb1 : List Slot := (update_panel_slot exDb exCat 1 exPlace3).1

/-- State after then removing at the continuation slot 2. -/
def exDb2 : List Slot := (remove_device_from_slot exDb1 2).1

/-- State after then placing the width-1 device at slot 2. -/
def exDb3 : List Slot := (update_panel_slot exDb2 exCat 2 { device_type_id := some 2 }).1

/-- Request placing the width-2 device, no instance fields. -/
def exPlace2 : PanelSlotUpdate := { device_type_id := some 3 }

/-- State after placing the width-2 device at slot 1 of the fixture. -/
def exDb8 : List Slot := (update_panel_slot exDb exCat 1 exPlace2).1

instance instDecEqExcept {e a : Type} [DecidableEq e] [DecidableEq a] :
    DecidableEq (Except e a)
  | .error x, .error y =>
      if h : x = y then .isTrue (by rw [h]) else .isFalse (fun hh => by cases hh; exact h rfl)
  | .error _, .ok _ => .isFalse (fun hh => by cases hh)
  | .ok _, .error _ => .isFalse (fun hh => by cases hh)
  | .ok x, .ok y =>
      if h : x = y then .isTrue (by rw [h]) else .isFalse (fun hh => by cases hh; exact h rfl)

/-- The set of slot ids the removal algorithm clears for a given target slot:
the whole stored span when the slot is occupied with spans_slots above one,
otherwise just the slot itself (mirrors the two branches of
remove_device_from_slot). -/
def clearedIds (db : List Slot) (sid : Nat) : List Nat :=
  match findSlot db sid with
  | none => []
  | some s =>
    if s.is_occupied ∧ 1 < s.spans_slots then
      match findSlotIndex (slotsInRow db s.panel_id s.row) sid with
      | none => []
      | some idx =>
        (((slotsInRow db s.panel_id s.row).drop idx).take s.spans_slots).map
          (fun u => u.id)
    else [sid]

theorem findSlot_mem {db : List Slot} {sid : Nat} {s : Slot}
    (h : findSlot db sid = some s) : s ∈ db := by
  induction db with
  | nil => simp [findSlot] at h
  | cons t rest ih =>
    by_cases ht : t.id = sid
    · simp [findSlot, ht] at h; simp [h]
    · simp [findSlot, ht] at h
      exact List.mem_cons_of_mem _ (ih h)

theorem findSlot_id {db : List Slot} {sid : Nat} {s : Slot}
    (h : findSlot db sid = some s) : s.id = sid := by
  induction db with
  | nil => simp [findSlot] at h
  | cons t rest ih =>
    by_cases ht : t.id = sid
    · simp [findSlot, ht] at h; rw [← h]; exact ht
    · simp [findSlot, ht] at h; exact ih h

theorem findSlot_isSome {db : List Slot} {sid : Nat} {s : Slot}
    (hmem : s ∈ db) (hid : s.id = sid) : ∃ t, findSlot db sid = some t := by
  induction db with
  | nil => simp at hmem
  | cons u rest ih =>
    by_cases hu : u.id = sid
    · exact ⟨u, by simp [findSlot, hu]⟩
    · rcases List.mem_cons.mp hmem with h | h
      · subst h; exact absurd hid hu
      · rcases ih h with ⟨t, ht⟩
        exact ⟨t, by simp [findSlot, hu, ht]⟩

theorem findSlot_map {db : List Slot} {sid : Nat} {g : Slot → Slot}
    (hid : ∀ t, (g t).id = t.id) :
    findSlot (db.map g) sid = (findSlot db sid).map g := by
  induction db with
  | nil => simp [findSlot]
  | cons t rest ih =>
    by_cases ht : t.id = sid
    · simp [findSlot, hid, ht]
    · simp [findSlot, hid, ht, ih]

theorem idInj {db : List Slot} (hnd : idsNodup db) {s t : Slot}
    (hs : s ∈ db) (ht : t ∈ db) (hid : s.id = t.id) : s = t := by
  rcases List.mem_iff_get.mp hs with ⟨i, hi⟩
  rcases List.mem_iff_get.mp ht with ⟨j, hj⟩
  have hij : (db.map (fun u => u.id)).get ⟨i.1, by simp [i.2]⟩ =
      (db.map (fun u => u.id)).get ⟨j.1, by simp [j.2]⟩ := by
    simp only [List.get_map]
    simp only [Fin.eta, hi, hj]
    exact hid
  have := (List.Nodup.get_inj_iff hnd).mp hij
  have hij2 : i.1 = j.1 := by simpa using congrArg Fin.val this
  rw [← hi, ← hj]
  congr 1
  exact Fin.ext hij2

theorem findSlotIndex_lt {L : List Slot} {sid i : Nat}
    (h : findSlotIndex L sid = some i) : i < L.length := by
  induction L generalizing i with
  | nil => simp [findSlotIndex] at h
  | cons t rest ih =>
    by_cases ht : t.id = sid
    · simp [findSlotIndex, ht] at h
      simp only [List.length_cons]
      omega
    · simp [findSlotIndex, ht] at h
      rcases h with ⟨j, hj, hji⟩
      have := ih hj
      simp only [List.length_cons, ← hji]
      omega

theorem findSlotIndex_get {L : List Slot} {sid i : Nat}
    (h : findSlotIndex L sid = some i) (hlt : i < L.length) :
    (L.get ⟨i, hlt⟩).id = sid := by
  induction L generalizing i with
  | nil => simp [findSlotIndex] at h
  | cons t rest ih =>
    by_cases ht : t.id = sid
    · simp [findSlotIndex, ht] at h
      subst h; simpa using ht
    · simp [findSlotIndex, ht] at h
      rcases h with ⟨j, hj, hji⟩
      subst hji
      have hjlt : j < rest.length := findSlotIndex_lt hj
      simpa using ih hj hjlt

theorem findSlotIndex_isSome {L : List Slot} {sid : Nat} {s : Slot}
    (hmem : s ∈ L) (hid : s.id = sid) : ∃ i, findSlotIndex L sid = some i := by
  induction L with
  | nil => simp at hmem
  | cons u rest ih =>
    by_cases hu : u.id = sid
    · exact ⟨0, by simp [findSlotIndex, hu]⟩
    · rcases List.mem_cons.mp hmem with h | h
      · subst h; exact absurd hid hu
      · rcases ih h with ⟨i, hi⟩
        exact ⟨i + 1, by simp [findSlotIndex, hu, hi]⟩

theorem findSlotIndex_map {L : List Slot} {sid : Nat} {g : Slot → Slot}
    (hid : ∀ t, (g t).id = t.id) :
    findSlotIndex (L.map g) sid = findSlotIndex L sid := by
  induction L with
  | nil => simp [findSlotIndex]
  | cons t rest ih =>
    by_cases ht : t.id = sid
    · simp [findSlotIndex, hid, ht]
    · simp [findSlotIndex, hid, ht, ih]

theorem insertByColumn_perm (s : Slot) (l : List Slot) :
    (insertByColumn s l).Perm (s :: l) := by
  induction l with
  | nil => simp [insertByColumn]
  | cons t ts ih =>
    by_cases h : s.column < t.column
    · simp [insertByColumn, h]
    · simp only [insertByColumn, if_neg h]
      exact (List.Perm.cons t ih).trans (List.Perm.swap s t ts)

theorem sortByColumn_perm (l : List Slot) : (sortByColumn l).Perm l := by
  have key : ∀ (l acc : List Slot),
      (l.foldl (fun a s => insertByColumn s a) acc).Perm (l ++ acc) := by
    intro l
    induction l with
    | nil => intro acc; simp
    | cons s ls ih =>
      intro acc
      simp only [List.foldl_cons, List.cons_append]
      have h1 := ih (insertByColumn s acc)
      have h2 : (ls ++ insertByColumn s acc).Perm (ls ++ s :: acc) :=
        List.Perm.append_left ls (insertByColumn_perm s acc)
      have h3 : (ls ++ s :: acc).Perm (s :: (ls ++ acc)) := List.perm_middle
      exact (h1.trans h2).trans h3
  simpa using key l []

theorem insertByColumn_map {g : Slot → Slot} (hcol : ∀ t, (g t).column = t.column)
    (s : Slot) (l : List Slot) :
    insertByColumn (g s) (l.map g) = (insertByColumn s l).map g := by
  induction l with
  | nil => simp [insertByColumn]
  | cons t ts ih =>
    by_cases h : s.column < t.column
    · simp [insertByColumn, hcol, h]
    · simp [insertByColumn, hcol, h, ih]

theorem sortByColumn_map {g : Slot → Slot} (hcol : ∀ t, (g t).column = t.column)
    (l : List Slot) : sortByColumn (l.map g) = (sortByColumn l).map g := by
  have key : ∀ (l acc : List Slot),
      (l.map g).foldl (fun a s => insertByColumn s a) (acc.map g) =
      (l.foldl (fun a s => insertByColumn s a) acc).map g := by
    intro l
    induction l with
    | nil => intro acc; simp
    | cons s ls ih =>
      intro acc
      simp only [List.map_cons, List.foldl_cons]
      rw [insertByColumn_map hcol, ih]
  simpa using key l []

theorem filter_map_comm {p : Slot → Bool} {g : Slot → Slot}
    (hp : ∀ t, p (g t) = p t) (db : List Slot) :
    (db.map g).filter p = (db.filter p).map g := by
  induction db with
  | nil => simp
  | cons t rest ih =>
    simp only [List.map_cons, List.filter_cons, hp]
    by_cases h : p t
    · simp [h, ih]
    · simp [h, ih]

theorem mem_slotsInRow {db : List Slot} {pid r : Nat} {s : Slot} :
    s ∈ slotsInRow db pid r ↔ (s ∈ db ∧ s.panel_id = pid ∧ s.row = r) := by
  unfold slotsInRow
  rw [List.Perm.mem_iff (sortByColumn_perm _)]
  simp [List.mem_filter]

theorem slotsInRow_map {db : List Slot} {pid r : Nat} {g : Slot → Slot}
    (hpid : ∀ t, (g t).panel_id = t.panel_id) (hrow : ∀ t, (g t).row = t.row)
    (hcol : ∀ t, (g t).column = t.column) :
    slotsInRow (db.map g) pid r = (slotsInRow db pid r).map g := by
  unfold slotsInRow
  rw [← sortByColumn_map hcol]
  congr 1
  exact filter_map_comm (fun t => by simp [hpid, hrow]) db

theorem idsNodup_slotsInRow {db : List Slot} (hnd : idsNodup db) (pid r : Nat) :
    idsNodup (slotsInRow db pid r) := by
  unfold idsNodup at hnd ⊢
  have h1 : ((slotsInRow db pid r).map (fun s => s.id)).Perm
      ((db.filter (fun s => decide (s.panel_id = pid ∧ s.row = r))).map (fun s => s.id)) :=
    List.Perm.map _ (sortByColumn_perm _)
  rw [List.Perm.nodup_iff h1]
  exact List.Nodup.sublist (List.Sublist.map _ (List.filter_sublist db)) hnd

theorem row_get_id_inj {L : List Slot} (hnd : idsNodup L) {a b : Fin L.length}
    (h : (L.get a).id = (L.get b).id) : a = b := by
  have ha : (L.map (fun s => s.id)).get ⟨a.1, by simp [a.2]⟩ =
      (L.map (fun s => s.id)).get ⟨b.1, by simp [b.2]⟩ := by
    simp only [List.get_eq_getElem, List.getElem_map]
    simpa using h
  have := (List.Nodup.get_inj_iff hnd).mp ha
  have h2 : a.1 = b.1 := by simpa using congrArg Fin.val this
  exact Fin.ext h2

theorem get_take_drop {L : List Slot} {i w k : Nat}
    (hk : k < ((L.drop i).take w).length) (hik : i + k < L.length) :
    ((L.drop i).take w).get ⟨k, hk⟩ = L.get ⟨i + k, hik⟩ := by
  rw [List.get_eq_getElem, List.getElem_take, List.get_eq_getElem]
  exact (List.getElem_drop' L hik).symm

theorem get_window_mem_iff {L : List Slot} (hnd : idsNodup L) {j i w : Nat}
    (hj : j < L.length) :
    (L.get ⟨j, hj⟩).id ∈ (((L.drop i).take w).map (fun s => s.id)) ↔
      (i ≤ j ∧ j < i + w) := by
  constructor
  · intro hmem
    rcases List.mem_map.mp hmem with ⟨u, hu, huid⟩
    rcases List.mem_iff_get.mp hu with ⟨k, hk⟩
    have hk1 : k.1 < w := by
      have := k.2; simp [List.length_take] at this; omega
    have hk2 : i + k.1 < L.length := by
      have := k.2; simp [List.length_take, List.length_drop] at this; omega
    have hget : ((L.drop i).take w).get k = L.get ⟨i + k.1, hk2⟩ := by
      rw [← get_take_drop k.2 hk2]
    have hid : (L.get ⟨i + k.1, hk2⟩).id = (L.get ⟨j, hj⟩).id := by
      rw [← hget, hk]; exact huid
    have := row_get_id_inj hnd hid
    have hij : i + k.1 = j := by simpa using congrArg Fin.val this
    omega
  · rintro ⟨h1, h2⟩
    have hk1 : j - i < ((L.drop i).take w).length := by
      simp [List.length_take, List.length_drop]; omega
    have hk2 : i + (j - i) < L.length := by omega
    have hget : ((L.drop i).take w).get ⟨j - i, hk1⟩ = L.get ⟨i + (j - i), hk2⟩ :=
      get_take_drop hk1 hk2
    apply List.mem_map.mpr
    refine ⟨((L.drop i).take w).get ⟨j - i, hk1⟩, List.get_mem _ _ _, ?_⟩
    have hidx : (⟨i + (j - i), hk2⟩ : Fin L.length) = ⟨j, hj⟩ :=
      Fin.ext (show i + (j - i) = j by omega)
    rw [hget, hidx]

theorem spanWF_pointwise_clear {L LL : List Slot} (hlen : LL.length = L.length)
    (hWF : SpanWF L) (p m : Nat) (hm : 1 ≤ m) (hfit : p + m ≤ L.length)
    (hplt : p < L.length)
    (hcase : ((L.get ⟨p, hplt⟩).is_occupied = false ∧ m = 1) ∨
             ((L.get ⟨p, hplt⟩).is_occupied = true ∧ (L.get ⟨p, hplt⟩).spans_slots = m))
    (hin : ∀ k : Fin LL.length, p ≤ k.1 → k.1 < p + m →
      (LL.get k).is_occupied = false)
    (hout : ∀ (k : Fin LL.length) (h : k.1 < L.length), (k.1 < p ∨ p + m ≤ k.1) →
      LL.get k = L.get ⟨k.1, h⟩) :
    SpanWF LL := by
  intro i hocc hspan
  have hiL : i.1 < L.length := hlen ▸ i.2
  have hi_out : i.1 < p ∨ p + m ≤ i.1 := by
    by_contra hcon
    push_neg at hcon
    have := hin i hcon.1 hcon.2
    rw [hocc] at this
    exact Bool.noConfusion this
  have heq := hout i hiL hi_out
  have hWFi := hWF ⟨i.1, hiL⟩ (by rw [← heq]; exact hocc) (by rw [← heq]; exact hspan)
  have hbound : i.1 + (L.get ⟨i.1, hiL⟩).spans_slots ≤ L.length := hWFi.1
  have hint : ∀ k : Fin L.length, i.1 < k.1 →
      k.1 < i.1 + (L.get ⟨i.1, hiL⟩).spans_slots →
      (L.get k).is_occupied = true ∧ (L.get k).spans_slots = 0 := hWFi.2
  refine ⟨?_, ?_⟩
  · rw [heq]; omega
  · intro k hik hkr
    rw [heq] at hkr
    have hkL : k.1 < L.length := hlen ▸ k.2
    have hkfact := hint ⟨k.1, hkL⟩ hik hkr
    have hkocc : (L.get ⟨k.1, hkL⟩).is_occupied = true := hkfact.1
    have hkspan : (L.get ⟨k.1, hkL⟩).spans_slots = 0 := hkfact.2
    have hk_out : k.1 < p ∨ p + m ≤ k.1 := by
      by_contra hcon
      push_neg at hcon
      rcases hcase with ⟨hfree, hm1⟩ | ⟨hoccp, hspansp⟩
      · have hkp : k.1 = p := by omega
        have hfin : (⟨k.1, hkL⟩ : Fin L.length) = ⟨p, hplt⟩ := Fin.ext hkp
        rw [hfin] at hkocc
        rw [hkocc] at hfree
        exact Bool.noConfusion hfree
      · by_cases hkp : k.1 = p
        · have hfin : (⟨k.1, hkL⟩ : Fin L.length) = ⟨p, hplt⟩ := Fin.ext hkp
          rw [hfin] at hkspan
          omega
        · rcases hi_out with hlt | hge
          · by_cases hpin : p < i.1 + (L.get ⟨i.1, hiL⟩).spans_slots
            · have hpfact := hint ⟨p, hplt⟩ (show i.1 < p by omega) hpin
              have h0 : (L.get ⟨p, hplt⟩).spans_slots = 0 := hpfact.2
              omega
            · omega
          · omega
    have heqk := hout k hkL hk_out
    rw [heqk]
    exact hkfact

theorem spanWF_pointwise_place {L LL : List Slot} (hlen : LL.length = L.length)
    (hWF : SpanWF L) (p w : Nat) (hw : 1 ≤ w) (hfit : p + w ≤ L.length)
    (hfree : ∀ j (h : j < L.length), p ≤ j → j < p + w →
      (L.get ⟨j, h⟩).is_occupied = false)
    (hanch : ∀ k : Fin LL.length, k.1 = p → (LL.get k).is_occupied = true ∧
      (LL.get k).spans_slots = w)
    (hcont : ∀ k : Fin LL.length, p < k.1 → k.1 < p + w →
      (LL.get k).is_occupied = true ∧ (LL.get k).spans_slots = 0)
    (hout : ∀ (k : Fin LL.length) (h : k.1 < L.length), (k.1 < p ∨ p + w ≤ k.1) →
      LL.get k = L.get ⟨k.1, h⟩) :
    SpanWF LL := by
  intro i hocc hspan
  have hiL : i.1 < L.length := hlen ▸ i.2
  by_cases hip : i.1 = p
  · have hA := hanch i hip
    refine ⟨?_, ?_⟩
    · rw [hA.2]; omega
    · intro k hik hkr
      rw [hA.2] at hkr
      exact hcont k (by omega) (by omega)
  · by_cases hiw : p < i.1 ∧ i.1 < p + w
    · have := (hcont i hiw.1 hiw.2).2
      omega
    · have hi_out : i.1 < p ∨ p + w ≤ i.1 := by omega
      have heq := hout i hiL hi_out
      have hWFi := hWF ⟨i.1, hiL⟩ (by rw [← heq]; exact hocc) (by rw [← heq]; exact hspan)
      have hbound : i.1 + (L.get ⟨i.1, hiL⟩).spans_slots ≤ L.length := hWFi.1
      have hint : ∀ k : Fin L.length, i.1 < k.1 →
          k.1 < i.1 + (L.get ⟨i.1, hiL⟩).spans_slots →
          (L.get k).is_occupied = true ∧ (L.get k).spans_slots = 0 := hWFi.2
      refine ⟨?_, ?_⟩
      · rw [heq]; omega
      · intro k hik hkr
        rw [heq] at hkr
        have hkL : k.1 < L.length := hlen ▸ k.2
        have hkfact := hint ⟨k.1, hkL⟩ hik hkr
        have hkocc : (L.get ⟨k.1, hkL⟩).is_occupied = true := hkfact.1
        have hk_out : k.1 < p ∨ p + w ≤ k.1 := by
          by_contra hcon
          push_neg at hcon
          have := hfree k.1 hkL hcon.1 hcon.2
          rw [hkocc] at this
          exact Bool.noConfusion this
        have heqk := hout k hkL hk_out
        rw [heqk]
        exact hkfact

theorem map_eq_self_of {l : List Slot} {f : Slot → Slot} (h : ∀ a ∈ l, f a = a) :
    l.map f = l := by
  induction l with
  | nil => rfl
  | cons t rest ih =>
    simp only [List.map_cons]
    rw [h t (by simp), ih (fun a ha => h a (by simp [ha]))]

theorem idsNodup_map_gate {db : List Slot} {g : Slot → Slot}
    (hid : ∀ t, (g t).id = t.id) (hnd : idsNodup db) : idsNodup (db.map g) := by
  unfold idsNodup at hnd ⊢
  rw [List.map_map]
  have : ((fun s => s.id) ∘ g) = (fun s : Slot => s.id) := funext (fun t => hid t)
  rw [this]
  exact hnd

theorem get_map_at {L : List Slot} {g : Slot → Slot} (k : Fin (L.map g).length)
    (h : k.1 < L.length) : (L.map g).get k = g (L.get ⟨k.1, h⟩) := by
  simp [List.get_eq_getElem, List.getElem_map]

theorem get_id_eq_iff {L : List Slot} (hnd : idsNodup L) {sid j pidx : Nat}
    (hj : j < L.length) (hpj : pidx < L.length)
    (hpid : (L.get ⟨pidx, hpj⟩).id = sid) :
    ((L.get ⟨j, hj⟩).id = sid ↔ j = pidx) := by
  constructor
  · intro h
    have : (L.get ⟨j, hj⟩).id = (L.get ⟨pidx, hpj⟩).id := by rw [h, hpid]
    have := row_get_id_inj hnd this
    simpa using congrArg Fin.val this
  · intro h
    subst h
    exact hpid

theorem id_mem_row_ids {db : List Slot} (hnd : idsNodup db) {t : Slot} (ht : t ∈ db)
    {pid0 r0 : Nat} {sub : List Slot}
    (hsub : ∀ u ∈ sub, u ∈ slotsInRow db pid0 r0)
    (hmem : t.id ∈ sub.map (fun u => u.id)) :
    t.panel_id = pid0 ∧ t.row = r0 := by
  rcases List.mem_map.mp hmem with ⟨u, hu, huid⟩
  have hurow := mem_slotsInRow.mp (hsub u hu)
  have : u = t := idInj hnd hurow.1 ht huid
  subst this
  exact ⟨hurow.2.1, hurow.2.2⟩

theorem window_mem_row {L : List Slot} {i w : Nat} :
    ∀ u ∈ (L.drop i).take w, u ∈ L :=
  fun u hu => List.mem_of_mem_drop (List.mem_of_mem_take hu)

theorem remove_not_found {db : List Slot} {sid : Nat}
    (hfind : findSlot db sid = none) :
    remove_device_from_slot db sid = (db, .error .slotNotFound) := by
  unfold remove_device_from_slot
  rw [hfind]

theorem remove_big_state {db : List Slot} {sid : Nat} {s : Slot} {idx : Nat}
    (hfind : findSlot db sid = some s) (hocc : s.is_occupied = true)
    (hsp : 1 < s.spans_slots)
    (hidx : findSlotIndex (slotsInRow db s.panel_id s.row) sid = some idx) :
    remove_device_from_slot db sid =
      (db.map (fun t =>
        if t.id ∈ (((slotsInRow db s.panel_id s.row).drop idx).take
            s.spans_slots).map (fun u => u.id)
        then clearSlotFields t else t), .ok ()) := by
  simp only [remove_device_from_slot, hfind]
  rw [if_pos ⟨hocc, hsp⟩]
  simp only [hidx]

theorem remove_small_state {db : List Slot} {sid : Nat} {s : Slot}
    (hfind : findSlot db sid = some s)
    (hns : ¬(s.is_occupied = true ∧ 1 < s.spans_slots)) :
    remove_device_from_slot db sid =
      (db.map (fun t => if t.id = sid then clearSlotFields t else t), .ok ()) := by
  simp only [remove_device_from_slot, hfind]
  rw [if_neg hns]

theorem remove_ok_of_found {db : List Slot} {sid : Nat} {s : Slot}
    (hfind : findSlot db sid = some s) :
    (remove_device_from_slot db sid).2 = .ok () := by
  by_cases hb : s.is_occupied = true ∧ 1 < s.spans_slots
  · rcases hidx : findSlotIndex (slotsInRow db s.panel_id s.row) sid with _ | idx
    · simp only [remove_device_from_slot, hfind]
      rw [if_pos hb]
      simp only [hidx]
    · rw [remove_big_state hfind hb.1 hb.2 hidx]
  · rw [remove_small_state hfind hb]

theorem remove_big_state1 {db : List Slot} {sid : Nat} {s : Slot} {idx : Nat}
    (hfind : findSlot db sid = some s) (hocc : s.is_occupied = true)
    (hsp : 1 < s.spans_slots)
    (hidx : findSlotIndex (slotsInRow db s.panel_id s.row) sid = some idx) :
    (remove_device_from_slot db sid).1 =
      db.map (fun t =>
        if t.id ∈ (((slotsInRow db s.panel_id s.row).drop idx).take
            s.spans_slots).map (fun u => u.id)
        then clearSlotFields t else t) := by
  rw [remove_big_state hfind hocc hsp hidx]

theorem remove_small_state1 {db : List Slot} {sid : Nat} {s : Slot}
    (hfind : findSlot db sid = some s)
    (hns : ¬(s.is_occupied = true ∧ 1 < s.spans_slots)) :
    (remove_device_from_slot db sid).1 =
      db.map (fun t => if t.id = sid then clearSlotFields t else t) := by
  rw [remove_small_state hfind hns]

theorem gridWF_remove {db : List Slot} {sid : Nat} (hWF : GridWF db)
    (hnc : notContRemoval db sid) : GridWF (remove_device_from_slot db sid).1 := by
  obtain ⟨hnd, hrows⟩ := hWF
  rcases hfind : findSlot db sid with _ | s
  · rw [remove_not_found hfind]
    exact ⟨hnd, hrows⟩
  have hs_mem := findSlot_mem hfind
  have hs_id := findSlot_id hfind
  have hsrow : s ∈ slotsInRow db s.panel_id s.row :=
    mem_slotsInRow.mpr ⟨hs_mem, rfl, rfl⟩
  by_cases hb : s.is_occupied = true ∧ 1 < s.spans_slots
  · obtain ⟨idx, hidx⟩ := findSlotIndex_isSome hsrow hs_id
    rw [remove_big_state1 hfind hb.1 hb.2 hidx]
    set L0 := slotsInRow db s.panel_id s.row with hL0
    set g : Slot → Slot := fun t =>
      if t.id ∈ ((L0.drop idx).take s.spans_slots).map (fun u => u.id)
      then clearSlotFields t else t with hg
    have hgid : ∀ t, (g t).id = t.id := by
      intro t; simp only [hg]
      by_cases h : t.id ∈ ((L0.drop idx).take s.spans_slots).map (fun u => u.id)
      · rw [if_pos h]; rfl
      · rw [if_neg h]
    have hgpid : ∀ t, (g t).panel_id = t.panel_id := by
      intro t; simp only [hg]
      by_cases h : t.id ∈ ((L0.drop idx).take s.spans_slots).map (fun u => u.id)
      · rw [if_pos h]; rfl
      · rw [if_neg h]
    have hgrow : ∀ t, (g t).row = t.row := by
      intro t; simp only [hg]
      by_cases h : t.id ∈ ((L0.drop idx).take s.spans_slots).map (fun u => u.id)
      · rw [if_pos h]; rfl
      · rw [if_neg h]
    have hgcol : ∀ t, (g t).column = t.column := by
      intro t; simp only [hg]
      by_cases h : t.id ∈ ((L0.drop idx).take s.spans_slots).map (fun u => u.id)
      · rw [if_pos h]; rfl
      · rw [if_neg h]
    refine ⟨idsNodup_map_gate hgid hnd, ?_⟩
    intro pid r
    rw [slotsInRow_map hgpid hgrow hgcol]
    by_cases hcase : pid = s.panel_id ∧ r = s.row
    · obtain ⟨h1, h2⟩ := hcase
      subst h1; subst h2
      rw [← hL0]
      have hndL : idsNodup L0 := idsNodup_slotsInRow hnd _ _
      have hidxlt : idx < L0.length := findSlotIndex_lt hidx
      have hidxid : (L0.get ⟨idx, hidxlt⟩).id = sid := findSlotIndex_get hidx hidxlt
      have hgets : L0.get ⟨idx, hidxlt⟩ = s := by
        apply idInj hnd (mem_slotsInRow.mp (List.get_mem _ _ _)).1 hs_mem
        rw [hidxid, hs_id]
      have hSpan := hrows s.panel_id s.row
      rw [← hL0] at hSpan
      have hWFidx := hSpan ⟨idx, hidxlt⟩ (by rw [hgets]; exact hb.1)
        (by rw [hgets]; omega)
      have hfit : idx + s.spans_slots ≤ L0.length := by
        have h0 : idx + (L0.get ⟨idx, hidxlt⟩).spans_slots ≤ L0.length := hWFidx.1
        rw [hgets] at h0
        exact h0
      apply spanWF_pointwise_clear (L := L0) (by simp) hSpan idx s.spans_slots
        (by omega) hfit hidxlt
      · right
        exact ⟨by rw [hgets]; exact hb.1, by rw [hgets]⟩
      · intro k h1 h2
        have hkL : k.1 < L0.length := by simpa using k.2
        rw [get_map_at k hkL]
        have hmem : (L0.get ⟨k.1, hkL⟩).id ∈
            ((L0.drop idx).take s.spans_slots).map (fun u => u.id) :=
          (get_window_mem_iff hndL hkL).mpr ⟨h1, h2⟩
        simp only [hg]
        rw [if_pos hmem]
        rfl
      · intro k h hor
        rw [get_map_at k h]
        have hnmem : ¬ (L0.get ⟨k.1, h⟩).id ∈
            ((L0.drop idx).take s.spans_slots).map (fun u => u.id) := by
          rw [get_window_mem_iff hndL h]
          omega
        simp only [hg]
        rw [if_neg hnmem]
    · rw [map_eq_self_of ?_]
      · exact hrows pid r
      · intro t ht
        have htdb := (mem_slotsInRow.mp ht).1
        simp only [hg]
        by_cases hmem : t.id ∈ ((L0.drop idx).take s.spans_slots).map (fun u => u.id)
        · exfalso
          have hpr := id_mem_row_ids hnd htdb
            (fun u hu => window_mem_row u hu) hmem
          have htr := mem_slotsInRow.mp ht
          exact hcase (by rw [← htr.2.1, ← htr.2.2]; exact ⟨hpr.1, hpr.2⟩)
        · rw [if_neg hmem]
  · obtain ⟨p, hp⟩ := findSlotIndex_isSome hsrow hs_id
    rw [remove_small_state1 hfind hb]
    set L0 := slotsInRow db s.panel_id s.row with hL0
    set g : Slot → Slot := fun t => if t.id = sid then clearSlotFields t else t with hg
    have hgid : ∀ t, (g t).id = t.id := by
      intro t; simp only [hg]
      by_cases h : t.id = sid
      · rw [if_pos h]; rfl
      · rw [if_neg h]
    have hgpid : ∀ t, (g t).panel_id = t.panel_id := by
      intro t; simp only [hg]
      by_cases h : t.id = sid
      · rw [if_pos h]; rfl
      · rw [if_neg h]
    have hgrow : ∀ t, (g t).row = t.row := by
      intro t; simp only [hg]
      by_cases h : t.id = sid
      · rw [if_pos h]; rfl
      · rw [if_neg h]
    have hgcol : ∀ t, (g t).column = t.column := by
      intro t; simp only [hg]
      by_cases h : t.id = sid
      · rw [if_pos h]; rfl
      · rw [if_neg h]
    refine ⟨idsNodup_map_gate hgid hnd, ?_⟩
    intro pid r
    rw [slotsInRow_map hgpid hgrow hgcol]
    by_cases hcase : pid = s.panel_id ∧ r = s.row
    · obtain ⟨h1, h2⟩ := hcase
      subst h1; subst h2
      rw [← hL0]
      have hndL : idsNodup L0 := idsNodup_slotsInRow hnd _ _
      have hplt : p < L0.length := findSlotIndex_lt hp
      have hpid : (L0.get ⟨p, hplt⟩).id = sid := findSlotIndex_get hp hplt
      have hgets : L0.get ⟨p, hplt⟩ = s := by
        apply idInj hnd (mem_slotsInRow.mp (List.get_mem _ _ _)).1 hs_mem
        rw [hpid, hs_id]
      have hSpan := hrows s.panel_id s.row
      rw [← hL0] at hSpan
      apply spanWF_pointwise_clear (L := L0) (by simp) hSpan p 1 (le_refl 1)
        (by omega) hplt
      · by_cases hso : s.is_occupied = true
        · right
          have hsp1 : s.spans_slots = 1 := by
            have h0 : ¬ isContSlot s := hnc s hfind
            unfold isContSlot at h0
            have h1 : ¬ 1 < s.spans_slots := fun hx => hb ⟨hso, hx⟩
            have h2 : ¬ s.spans_slots = 0 := fun hx => h0 ⟨hso, hx⟩
            omega
          exact ⟨by rw [hgets]; exact hso, by rw [hgets]; exact hsp1⟩
        · left
          refine ⟨?_, rfl⟩
          rw [hgets]
          exact Bool.not_eq_true s.is_occupied ▸ hso
      · intro k h1 h2
        have hkL : k.1 < L0.length := by simpa using k.2
        rw [get_map_at k hkL]
        have hkp : k.1 = p := by omega
        have hmem : (L0.get ⟨k.1, hkL⟩).id = sid :=
          (get_id_eq_iff hndL hkL hplt hpid).mpr hkp
        simp only [hg]
        rw [if_pos hmem]
        rfl
      · intro k h hor
        rw [get_map_at k h]
        have hnmem : ¬ (L0.get ⟨k.1, h⟩).id = sid := by
          rw [get_id_eq_iff hndL h hplt hpid]
          omega
        simp only [hg]
        rw [if_neg hnmem]
    · rw [map_eq_self_of ?_]
      · exact hrows pid r
      · intro t ht
        have htdb := (mem_slotsInRow.mp ht).1
        simp only [hg]
        by_cases hmem : t.id = sid
        · exfalso
          have hts : t = s := idInj hnd htdb hs_mem (by rw [hmem, hs_id])
          have htr := mem_slotsInRow.mp ht
          exact hcase (by rw [← htr.2.1, ← htr.2.2, hts]; exact ⟨rfl, rfl⟩)
        · rw [if_neg hmem]

theorem findDeviceType_mem {types : List DeviceType} {tid : Nat} {dt : DeviceType}
    (h : findDeviceType types tid = some dt) : dt ∈ types := by
  induction types with
  | nil => simp [findDeviceType] at h
  | cons t rest ih =>
    by_cases ht : t.id = tid
    · simp [findDeviceType, ht] at h; simp [h]
    · simp [findDeviceType, ht] at h
      exact List.mem_cons_of_mem _ (ih h)

theorem canPlace_spec {db : List Slot} {types : List DeviceType} {sid tid : Nat}
    {s : Slot} {dt : DeviceType}
    (hfind : findSlot db sid = some s) (htype : findDeviceType types tid = some dt)
    (hcan : can_place_device_at_slot db types sid tid = true) :
    (dt.slots_required = 1 ∧ s.is_occupied = false) ∨
    (dt.slots_required ≠ 1 ∧ ∃ idx,
      findSlotIndex (slotsInRow db s.panel_id s.row) sid = some idx ∧
      idx + dt.slots_required ≤ (slotsInRow db s.panel_id s.row).length ∧
      ∀ u ∈ ((slotsInRow db s.panel_id s.row).drop idx).take dt.slots_required,
        u.is_occupied = false) := by
  simp only [can_place_device_at_slot, hfind, htype] at hcan
  by_cases hw1 : dt.slots_required = 1
  · rw [if_pos hw1] at hcan
    left
    exact ⟨hw1, by simpa using hcan⟩
  · rw [if_neg hw1] at hcan
    right
    refine ⟨hw1, ?_⟩
    rcases hidx : findSlotIndex (slotsInRow db s.panel_id s.row) sid with _ | idx
    · simp only [hidx] at hcan
      exact (Bool.false_ne_true hcan).elim
    · simp only [hidx] at hcan
      by_cases hlen : (slotsInRow db s.panel_id s.row).length <
          idx + dt.slots_required
      · rw [if_pos hlen] at hcan; exact absurd hcan (by simp)
      · rw [if_neg hlen] at hcan
        refine ⟨idx, rfl, by omega, ?_⟩
        intro u hu
        have := List.all_eq_true.mp hcan u hu
        simpa using this

theorem update_slot_missing {db : List Slot} {types : List DeviceType} {sid : Nat}
    {su : PanelSlotUpdate} (hfind : findSlot db sid = none) :
    update_panel_slot db types sid su = (db, .error .slotNotFound) := by
  simp only [update_panel_slot, hfind]

theorem update_type_missing {db : List Slot} {types : List DeviceType} {sid tid : Nat}
    {su : PanelSlotUpdate} {s : Slot} (hfind : findSlot db sid = some s)
    (hsu : su.device_type_id = some tid) (htype : findDeviceType types tid = none) :
    update_panel_slot db types sid su = (db, .error .deviceTypeNotFound) := by
  simp only [update_panel_slot, hfind, hsu, htype]

theorem update_cannot_place {db : List Slot} {types : List DeviceType} {sid tid : Nat}
    {su : PanelSlotUpdate} {s : Slot} {dt : DeviceType}
    (hfind : findSlot db sid = some s) (hsu : su.device_type_id = some tid)
    (htype : findDeviceType types tid = some dt)
    (hcan : can_place_device_at_slot db types sid tid = false) :
    update_panel_slot db types sid su = (db, .error .cannotPlace) := by
  simp only [update_panel_slot, hfind, hsu, htype]
  rw [if_pos (by rw [hcan]; exact Bool.false_ne_true)]

theorem update_none_state {db : List Slot} {types : List DeviceType} {sid : Nat}
    {su : PanelSlotUpdate} {s : Slot} (hfind : findSlot db sid = some s)
    (hsu : su.device_type_id = none) :
    (update_panel_slot db types sid su).1 = (remove_device_from_slot db sid).1 := by
  simp only [update_panel_slot, hfind, hsu]
  rcases hrm : remove_device_from_slot db sid with ⟨db1, res⟩
  have hres : res = .ok () := by
    have := remove_ok_of_found hfind
    rw [hrm] at this
    exact this
  subst hres
  rcases hf1 : findSlot db1 sid with _ | s1 <;> simp [hf1]

theorem update_none_ok {db : List Slot} {types : List DeviceType} {sid : Nat}
    {su : PanelSlotUpdate} {s s1 : Slot} (hfind : findSlot db sid = some s)
    (hsu : su.device_type_id = none)
    (hf1 : findSlot (remove_device_from_slot db sid).1 sid = some s1) :
    update_panel_slot db types sid su = ((remove_device_from_slot db sid).1, .ok s1) := by
  simp only [update_panel_slot, hfind, hsu]
  rcases hrm : remove_device_from_slot db sid with ⟨db1, res⟩
  have hres : res = .ok () := by
    have := remove_ok_of_found hfind
    rw [hrm] at this
    exact this
  subst hres
  have hdb1 : db1 = (remove_device_from_slot db sid).1 := by rw [hrm]
  subst hdb1
  simp only [hf1]

theorem update_place_pair {db : List Slot} {types : List DeviceType} {sid tid : Nat}
    {su : PanelSlotUpdate} {s : Slot} {dt : DeviceType}
    (hfind : findSlot db sid = some s) (hsu : su.device_type_id = some tid)
    (htype : findDeviceType types tid = some dt)
    (hcan : can_place_device_at_slot db types sid tid = true)
    (hns : ¬(s.is_occupied = true ∧ 1 < s.spans_slots)) :
    update_panel_slot db types sid su =
      (let db2 := (db.map (fun t => if t.id = sid then clearSlotFields t else t)).map
          (fun t => if t.id = sid then anchorWrite su dt.slots_required t else t)
       let db3 := if 1 < dt.slots_required then
           match findSlotIndex (slotsInRow db2 s.panel_id s.row) sid with
           | none => db2
           | some slot_index =>
             db2.map (fun t =>
               if t.id ∈ (((slotsInRow db2 s.panel_id s.row).drop (slot_index + 1)).take
                   (dt.slots_required - 1)).map (fun u => u.id)
               then contWrite t else t)
         else db2
       match findSlot db3 sid with
       | some s3 => (db3, Except.ok s3)
       | none => (db3, Except.error Err.slotNotFound)) := by
  simp only [update_panel_slot, hfind, hsu, htype]
  rw [if_neg (fun hcon => hcon hcan)]
  rw [remove_small_state hfind hns]

theorem update_place_state_w1 {db : List Slot} {types : List DeviceType} {sid tid : Nat}
    {su : PanelSlotUpdate} {s : Slot} {dt : DeviceType}
    (hfind : findSlot db sid = some s) (hsu : su.device_type_id = some tid)
    (htype : findDeviceType types tid = some dt)
    (hcan : can_place_device_at_slot db types sid tid = true)
    (hns : ¬(s.is_occupied = true ∧ 1 < s.spans_slots))
    (hw1 : ¬ 1 < dt.slots_required) :
    (update_panel_slot db types sid su).1 =
      (db.map (fun t => if t.id = sid then clearSlotFields t else t)).map
        (fun t => if t.id = sid then anchorWrite su dt.slots_required t else t) := by
  rw [update_place_pair hfind hsu htype hcan hns]
  simp only []
  rw [if_neg hw1]
  rcases hf3 : findSlot ((db.map (fun t => if t.id = sid then clearSlotFields t else t)).map
      (fun t => if t.id = sid then anchorWrite su dt.slots_required t else t)) sid with _ | s3 <;>
    rw [hf3]

theorem update_place_state_big {db : List Slot} {types : List DeviceType} {sid tid : Nat}
    {su : PanelSlotUpdate} {s : Slot} {dt : DeviceType} {idx : Nat}
    (hfind : findSlot db sid = some s) (hsu : su.device_type_id = some tid)
    (htype : findDeviceType types tid = some dt)
    (hcan : can_place_device_at_slot db types sid tid = true)
    (hns : ¬(s.is_occupied = true ∧ 1 < s.spans_slots))
    (hwb : 1 < dt.slots_required)
    (hidx2 : findSlotIndex (slotsInRow
      ((db.map (fun t => if t.id = sid then clearSlotFields t else t)).map
        (fun t => if t.id = sid then anchorWrite su dt.slots_required t else t))
      s.panel_id s.row) sid = some idx) :
    (update_panel_slot db types sid su).1 =
      ((db.map (fun t => if t.id = sid then clearSlotFields t else t)).map
        (fun t => if t.id = sid then anchorWrite su dt.slots_required t else t)).map
        (fun t =>
          if t.id ∈ (((slotsInRow
              ((db.map (fun t => if t.id = sid then clearSlotFields t else t)).map
                (fun t => if t.id = sid then anchorWrite su dt.slots_required t else t))
              s.panel_id s.row).drop (idx + 1)).take (dt.slots_required - 1)).map
              (fun u => u.id)
          then contWrite t else t) := by
  rw [update_place_pair hfind hsu htype hcan hns]
  simp only []
  rw [if_pos hwb, hidx2]
  simp only []
  rcases hf3 : findSlot (((db.map (fun t => if t.id = sid then clearSlotFields t else t)).map
      (fun t => if t.id = sid then anchorWrite su dt.slots_required t else t)).map
        (fun t =>
          if t.id ∈ (((slotsInRow
              ((db.map (fun t => if t.id = sid then clearSlotFields t else t)).map
                (fun t => if t.id = sid then anchorWrite su dt.slots_required t else t))
              s.panel_id s.row).drop (idx + 1)).take (dt.slots_required - 1)).map
              (fun u => u.id)
          then contWrite t else t)) sid with _ | s3 <;>
    rw [hf3]

theorem update_ok_refresh {db : List Slot} {types : List DeviceType} {sid : Nat}
    {su : PanelSlotUpdate} {dbf : List Slot} {a : Slot}
    (h : update_panel_slot db types sid su = (dbf, Except.ok a)) :
    findSlot dbf sid = some a := by
  rcases hfind : findSlot db sid with _ | s
  · rw [update_slot_missing hfind] at h
    simp at h
  rcases hsu : su.device_type_id with _ | tid
  · simp only [update_panel_slot, hfind, hsu] at h
    rcases hrm : remove_device_from_slot db sid with ⟨db1, res⟩
    rw [hrm] at h
    rcases res with e | u
    · simp at h
    · simp only [] at h
      rcases hf1 : findSlot db1 sid with _ | s1
      · rw [hf1] at h; simp at h
      · rw [hf1] at h
        simp only [Prod.mk.injEq, Except.ok.injEq] at h
        rw [← h.1, hf1, h.2]
  · rcases htype : findDeviceType types tid with _ | dt
    · rw [update_type_missing hfind hsu htype] at h
      simp at h
    by_cases hcan : can_place_device_at_slot db types sid tid = true
    · simp only [update_panel_slot, hfind, hsu, htype] at h
      rw [if_neg (fun hcon => hcon hcan)] at h
      rcases hrm : remove_device_from_slot db sid with ⟨db1, res⟩
      rw [hrm] at h
      rcases res with e | u
      · simp at h
      · simp only [] at h
        by_cases hwb : 1 < dt.slots_required
        · rw [if_pos hwb] at h
          rcases hidx2 : findSlotIndex (slotsInRow
              (db1.map (fun t => if t.id = sid then anchorWrite su dt.slots_required t else t))
              s.panel_id s.row) sid with _ | idx
          · rw [hidx2] at h
            simp only [] at h
            rcases hf3 : findSlot
                (db1.map (fun t => if t.id = sid then anchorWrite su dt.slots_required t else t))
                sid with _ | s3
            · rw [hf3] at h; simp at h
            · rw [hf3] at h
              simp only [Prod.mk.injEq, Except.ok.injEq] at h
              rw [← h.1, hf3, h.2]
          · rw [hidx2] at h
            simp only [] at h
            rcases hf3 : findSlot
                ((db1.map (fun t => if t.id = sid then anchorWrite su dt.slots_required t else t)).map
                  (fun t =>
                    if t.id ∈ (((slotsInRow
                        (db1.map (fun t => if t.id = sid then anchorWrite su dt.slots_required t else t))
                        s.panel_id s.row).drop (idx + 1)).take (dt.slots_required - 1)).map
                        (fun u => u.id)
                    then contWrite t else t))
                sid with _ | s3
            · rw [hf3] at h; simp at h
            · rw [hf3] at h
              simp only [Prod.mk.injEq, Except.ok.injEq] at h
              rw [← h.1, hf3, h.2]
        · rw [if_neg hwb] at h
          rcases hf3 : findSlot
              (db1.map (fun t => if t.id = sid then anchorWrite su dt.slots_required t else t))
              sid with _ | s3
          · rw [hf3] at h; simp at h
          · rw [hf3] at h
            simp only [Prod.mk.injEq, Except.ok.injEq] at h
            rw [← h.1, hf3, h.2]
    · have hcanf : can_place_device_at_slot db types sid tid = false := by
        cases hx : can_place_device_at_slot db types sid tid
        · rfl
        · exact absurd hx hcan
      rw [update_cannot_place hfind hsu htype hcanf] at h
      simp at h

theorem ite_slot_id (c : Prop) [Decidable c] (f : Slot → Slot) (t : Slot)
    (hf : (f t).id = t.id) : (if c then f t else t).id = t.id := by
  split
  · exact hf
  · rfl

theorem ite_slot_pid (c : Prop) [Decidable c] (f : Slot → Slot) (t : Slot)
    (hf : (f t).panel_id = t.panel_id) :
    (if c then f t else t).panel_id = t.panel_id := by
  split
  · exact hf
  · rfl

theorem ite_slot_row (c : Prop) [Decidable c] (f : Slot → Slot) (t : Slot)
    (hf : (f t).row = t.row) : (if c then f t else t).row = t.row := by
  split
  · exact hf
  · rfl

theorem ite_slot_col (c : Prop) [Decidable c] (f : Slot → Slot) (t : Slot)
    (hf : (f t).column = t.column) : (if c then f t else t).column = t.column := by
  split
  · exact hf
  · rfl

theorem window_get_mem {L : List Slot} {i w j : Nat} (h : j < L.length)
    (h1 : i ≤ j) (h2 : j < i + w) : L.get ⟨j, h⟩ ∈ (L.drop i).take w := by
  have hk1 : j - i < ((L.drop i).take w).length := by
    simp [List.length_take, List.length_drop]; omega
  have hk2 : i + (j - i) < L.length := by omega
  have hg := get_take_drop hk1 hk2
  have hfin : (⟨i + (j - i), hk2⟩ : Fin L.length) = ⟨j, h⟩ :=
    Fin.ext (show i + (j - i) = j by omega)
  rw [hfin] at hg
  rw [← hg]
  exact List.get_mem _ _ _

theorem window_ids_map {L : List Slot} {g : Slot → Slot}
    (hid : ∀ t, (g t).id = t.id) (i w : Nat) :
    ((((L.map g).drop i).take w).map (fun u => u.id)) =
      (((L.drop i).take w).map (fun u => u.id)) := by
  rw [← List.map_drop, ← List.map_take, List.map_map]
  congr 1
  funext t
  exact hid t

theorem gridWF_update {db : List Slot} {types : List DeviceType} {sid : Nat}
    {su : PanelSlotUpdate} (hWF : GridWF db) (hvw : validWidths types)
    (hnc : su.device_type_id = none → notContRemoval db sid) :
    GridWF (update_panel_slot db types sid su).1 := by
  rcases hfind : findSlot db sid with _ | s
  · rw [update_slot_missing hfind]; exact hWF
  rcases hsu : su.device_type_id with _ | tid
  · rw [update_none_state hfind hsu]
    exact gridWF_remove hWF (hnc hsu)
  rcases htype : findDeviceType types tid with _ | dt
  · rw [update_type_missing hfind hsu htype]; exact hWF
  by_cases hcan : can_place_device_at_slot db types sid tid = true
  case neg =>
    have hcanf : can_place_device_at_slot db types sid tid = false := by
      cases hx : can_place_device_at_slot db types sid tid
      · rfl
      · exact absurd hx hcan
    rw [update_cannot_place hfind hsu htype hcanf]
    exact hWF
  case pos =>
  obtain ⟨hnd, hrows⟩ := hWF
  have hs_mem := findSlot_mem hfind
  have hs_id := findSlot_id hfind
  have hw : 1 ≤ dt.slots_required := hvw dt (findDeviceType_mem htype)
  have hndL : idsNodup (slotsInRow db s.panel_id s.row) :=
    idsNodup_slotsInRow hnd _ _
  have hsrow : s ∈ slotsInRow db s.panel_id s.row :=
    mem_slotsInRow.mpr ⟨hs_mem, rfl, rfl⟩
  obtain ⟨p, hp⟩ := findSlotIndex_isSome hsrow hs_id
  have hplt : p < (slotsInRow db s.panel_id s.row).length := findSlotIndex_lt hp
  have hpid0 : ((slotsInRow db s.panel_id s.row).get ⟨p, hplt⟩).id = sid :=
    findSlotIndex_get hp hplt
  have hgetp : (slotsInRow db s.panel_id s.row).get ⟨p, hplt⟩ = s := by
    apply idInj hnd (mem_slotsInRow.mp (List.get_mem _ _ _)).1 hs_mem
    rw [hpid0, hs_id]
  have hg1id : ∀ t : Slot, ((fun t =>
      if t.id = sid then clearSlotFields t else t) t).id = t.id :=
    fun t => ite_slot_id _ _ t rfl
  have hg1pid : ∀ t : Slot, ((fun t =>
      if t.id = sid then clearSlotFields t else t) t).panel_id = t.panel_id :=
    fun t => ite_slot_pid _ _ t rfl
  have hg1row : ∀ t : Slot, ((fun t =>
      if t.id = sid then clearSlotFields t else t) t).row = t.row :=
    fun t => ite_slot_row _ _ t rfl
  have hg1col : ∀ t : Slot, ((fun t =>
      if t.id = sid then clearSlotFields t else t) t).column = t.column :=
    fun t => ite_slot_col _ _ t rfl
  have hg2id : ∀ t : Slot, ((fun t =>
      if t.id = sid then anchorWrite su dt.slots_required t else t) t).id = t.id :=
    fun t => ite_slot_id _ _ t rfl
  have hg2pid : ∀ t : Slot, ((fun t =>
      if t.id = sid then anchorWrite su dt.slots_required t else t) t).panel_id
      = t.panel_id :=
    fun t => ite_slot_pid _ _ t rfl
  have hg2row : ∀ t : Slot, ((fun t =>
      if t.id = sid then anchorWrite su dt.slots_required t else t) t).row = t.row :=
    fun t => ite_slot_row _ _ t rfl
  have hg2col : ∀ t : Slot, ((fun t =>
      if t.id = sid then anchorWrite su dt.slots_required t else t) t).column
      = t.column :=
    fun t => ite_slot_col _ _ t rfl
  have hother : ∀ pid r, ¬(pid = s.panel_id ∧ r = s.row) →
      ∀ t ∈ slotsInRow db pid r, ¬ t.id = sid := by
    intro pid r hcase t ht hmem
    have htdb := mem_slotsInRow.mp ht
    have hts : t = s := idInj hnd htdb.1 hs_mem (by rw [hmem, hs_id])
    exact hcase (by rw [← htdb.2.1, ← htdb.2.2, hts]; exact ⟨rfl, rfl⟩)
  rcases canPlace_spec hfind htype hcan with ⟨hw1, hso⟩ |
    ⟨hw1, idx, hidx, hfit, hwinfree⟩
  · -- width-1 placement
    have hns : ¬(s.is_occupied = true ∧ 1 < s.spans_slots) := by
      intro hcon
      rw [hso] at hcon
      exact Bool.noConfusion hcon.1
    rw [update_place_state_w1 hfind hsu htype hcan hns (by omega)]
    refine ⟨idsNodup_map_gate hg2id (idsNodup_map_gate hg1id hnd), ?_⟩
    intro pid r
    rw [slotsInRow_map hg2pid hg2row hg2col, slotsInRow_map hg1pid hg1row hg1col]
    by_cases hcase : pid = s.panel_id ∧ r = s.row
    · obtain ⟨h1, h2⟩ := hcase
      subst h1; subst h2
      apply spanWF_pointwise_place (L := slotsInRow db s.panel_id s.row)
        (by simp) (hrows s.panel_id s.row) p dt.slots_required hw (by omega)
      · intro j h hj1 hj2
        have hjp : j = p := by omega
        have hfin : (⟨j, h⟩ : Fin (slotsInRow db s.panel_id s.row).length) =
            ⟨p, hplt⟩ := Fin.ext hjp
        rw [hfin, hgetp]
        exact hso
      · intro k hk
        have hkL1 : k.1 < ((slotsInRow db s.panel_id s.row).map (fun t =>
            if t.id = sid then clearSlotFields t else t)).length := by
          simpa using k.2
        have hkL : k.1 < (slotsInRow db s.panel_id s.row).length := by
          simpa using k.2
        rw [get_map_at k hkL1, get_map_at ⟨k.1, hkL1⟩ hkL]
        have hmem0 : ((slotsInRow db s.panel_id s.row).get ⟨k.1, hkL⟩).id = sid := by
          have hfin : (⟨k.1, hkL⟩ : Fin (slotsInRow db s.panel_id s.row).length) =
              ⟨p, hplt⟩ := Fin.ext hk
          rw [hfin, hpid0]
        simp only []
        rw [if_pos hmem0]
        have hcid : (clearSlotFields ((slotsInRow db s.panel_id s.row).get
            ⟨k.1, hkL⟩)).id = sid := hmem0
        rw [if_pos hcid]
        exact ⟨rfl, rfl⟩
      · intro k hk1 hk2
        omega
      · intro k h hor
        have hkL1 : k.1 < ((slotsInRow db s.panel_id s.row).map (fun t =>
            if t.id = sid then clearSlotFields t else t)).length := by
          simpa using k.2
        rw [get_map_at k hkL1, get_map_at ⟨k.1, hkL1⟩ h]
        have hnmem : ¬ ((slotsInRow db s.panel_id s.row).get ⟨k.1, h⟩).id = sid := by
          rw [get_id_eq_iff hndL h hplt hpid0]
          omega
        simp only []
        rw [if_neg hnmem, if_neg hnmem]
    · rw [map_eq_self_of (fun t ht => ?_), map_eq_self_of (fun t ht => ?_)]
      · exact hrows pid r
      · rw [if_neg (hother pid r hcase t ht)]
      · have ht2 : t ∈ slotsInRow db pid r := by
          rw [map_eq_self_of (fun u hu => ?_)] at ht
          · exact ht
          · rw [if_neg (hother pid r hcase u hu)]
        rw [if_neg (hother pid r hcase t ht2)]
  · -- multi-slot placement
    have hpidx : p = idx := by
      rw [hp] at hidx
      injection hidx
    subst hpidx
    have hwb : 1 < dt.slots_required := by
      rcases Nat.lt_or_ge 1 dt.slots_required with h | h
      · exact h
      · exact absurd (by omega : dt.slots_required = 1) hw1
    have hso : s.is_occupied = false := by
      have hmemw : (slotsInRow db s.panel_id s.row).get ⟨p, hplt⟩ ∈
          (((slotsInRow db s.panel_id s.row).drop p).take dt.slots_required) :=
        window_get_mem hplt (le_refl p) (by omega)
      have := hwinfree _ hmemw
      rw [hgetp] at this
      exact this
    have hns : ¬(s.is_occupied = true ∧ 1 < s.spans_slots) := by
      intro hcon
      rw [hso] at hcon
      exact Bool.noConfusion hcon.1
    have hrow2 : slotsInRow ((db.map (fun t =>
        if t.id = sid then clearSlotFields t else t)).map (fun t =>
        if t.id = sid then anchorWrite su dt.slots_required t else t))
        s.panel_id s.row =
        ((slotsInRow db s.panel_id s.row).map (fun t =>
          if t.id = sid then clearSlotFields t else t)).map (fun t =>
          if t.id = sid then anchorWrite su dt.slots_required t else t) := by
      rw [slotsInRow_map hg2pid hg2row hg2col, slotsInRow_map hg1pid hg1row hg1col]
    have hidx2 : findSlotIndex (slotsInRow ((db.map (fun t =>
        if t.id = sid then clearSlotFields t else t)).map (fun t =>
        if t.id = sid then anchorWrite su dt.slots_required t else t))
        s.panel_id s.row) sid = some p := by
      rw [hrow2, findSlotIndex_map hg2id, findSlotIndex_map hg1id]
      exact hp
    rw [update_place_state_big hfind hsu htype hcan hns hwb hidx2]
    simp only [hrow2, window_ids_map hg2id, window_ids_map hg1id]
    have hg3id : ∀ t : Slot, ((fun t => if t.id ∈
        (((slotsInRow db s.panel_id s.row).drop (p + 1)).take
          (dt.slots_required - 1)).map (fun u => u.id)
        then contWrite t else t) t).id = t.id :=
      fun t => ite_slot_id _ _ t rfl
    have hg3pid : ∀ t : Slot, ((fun t => if t.id ∈
        (((slotsInRow db s.panel_id s.row).drop (p + 1)).take
          (dt.slots_required - 1)).map (fun u => u.id)
        then contWrite t else t) t).panel_id = t.panel_id :=
      fun t => ite_slot_pid _ _ t rfl
    have hg3row : ∀ t : Slot, ((fun t => if t.id ∈
        (((slotsInRow db s.panel_id s.row).drop (p + 1)).take
          (dt.slots_required - 1)).map (fun u => u.id)
        then contWrite t else t) t).row = t.row :=
      fun t => ite_slot_row _ _ t rfl
    have hg3col : ∀ t : Slot, ((fun t => if t.id ∈
        (((slotsInRow db s.panel_id s.row).drop (p + 1)).take
          (dt.slots_required - 1)).map (fun u => u.id)
        then contWrite t else t) t).column = t.column :=
      fun t => ite_slot_col _ _ t rfl
    refine ⟨idsNodup_map_gate hg3id (idsNodup_map_gate hg2id
      (idsNodup_map_gate hg1id hnd)), ?_⟩
    intro pid r
    rw [slotsInRow_map hg3pid hg3row hg3col, slotsInRow_map hg2pid hg2row hg2col,
      slotsInRow_map hg1pid hg1row hg1col]
    by_cases hcase : pid = s.panel_id ∧ r = s.row
    · obtain ⟨h1, h2⟩ := hcase
      subst h1; subst h2
      apply spanWF_pointwise_place (L := slotsInRow db s.panel_id s.row)
        (by simp) (hrows s.panel_id s.row) p dt.slots_required hw hfit
      · intro j h hj1 hj2
        exact hwinfree _ (window_get_mem h hj1 hj2)
      · intro k hk
        have hkL2 : k.1 < (((slotsInRow db s.panel_id s.row).map (fun t =>
            if t.id = sid then clearSlotFields t else t)).map (fun t =>
            if t.id = sid then anchorWrite su dt.slots_required t else t)).length := by
          simpa using k.2
        have hkL1 : k.1 < ((slotsInRow db s.panel_id s.row).map (fun t =>
            if t.id = sid then clearSlotFields t else t)).length := by
          simpa using k.2
        have hkL : k.1 < (slotsInRow db s.panel_id s.row).length := by
          simpa using k.2
        rw [get_map_at k hkL2, get_map_at ⟨k.1, hkL2⟩ hkL1,
          get_map_at ⟨k.1, hkL1⟩ hkL]
        have hmem0 : ((slotsInRow db s.panel_id s.row).get ⟨k.1, hkL⟩).id = sid := by
          have hfin : (⟨k.1, hkL⟩ : Fin (slotsInRow db s.panel_id s.row).length) =
              ⟨p, hplt⟩ := Fin.ext hk
          rw [hfin, hpid0]
        have hnin : ¬ ((slotsInRow db s.panel_id s.row).get ⟨k.1, hkL⟩).id ∈
            (((slotsInRow db s.panel_id s.row).drop (p + 1)).take
              (dt.slots_required - 1)).map (fun u => u.id) := by
          rw [get_window_mem_iff hndL hkL]
          omega
        simp only []
        rw [if_pos hmem0]
        have hcid : (clearSlotFields ((slotsInRow db s.panel_id s.row).get
            ⟨k.1, hkL⟩)).id = sid := hmem0
        rw [if_pos hcid]
        have haid : ¬ (anchorWrite su dt.slots_required (clearSlotFields
            ((slotsInRow db s.panel_id s.row).get ⟨k.1, hkL⟩))).id ∈
            (((slotsInRow db s.panel_id s.row).drop (p + 1)).take
              (dt.slots_required - 1)).map (fun u => u.id) := hnin
        rw [if_neg haid]
        exact ⟨rfl, rfl⟩
      · intro k hk1 hk2
        have hkL2 : k.1 < (((slotsInRow db s.panel_id s.row).map (fun t =>
            if t.id = sid then clearSlotFields t else t)).map (fun t =>
            if t.id = sid then anchorWrite su dt.slots_required t else t)).length := by
          simpa using k.2
        have hkL1 : k.1 < ((slotsInRow db s.panel_id s.row).map (fun t =>
            if t.id = sid then clearSlotFields t else t)).length := by
          simpa using k.2
        have hkL : k.1 < (slotsInRow db s.panel_id s.row).length := by
          simpa using k.2
        rw [get_map_at k hkL2, get_map_at ⟨k.1, hkL2⟩ hkL1,
          get_map_at ⟨k.1, hkL1⟩ hkL]
        have hnmem0 : ¬ ((slotsInRow db s.panel_id s.row).get ⟨k.1, hkL⟩).id = sid := by
          rw [get_id_eq_iff hndL hkL hplt hpid0]
          omega
        have hin : ((slotsInRow db s.panel_id s.row).get ⟨k.1, hkL⟩).id ∈
            (((slotsInRow db s.panel_id s.row).drop (p + 1)).take
              (dt.slots_required - 1)).map (fun u => u.id) := by
          rw [get_window_mem_iff hndL hkL]
          omega
        simp only []
        rw [if_neg hnmem0, if_neg hnmem0, if_pos hin]
        exact ⟨rfl, rfl⟩
      · intro k h hor
        have hkL2 : k.1 < (((slotsInRow db s.panel_id s.row).map (fun t =>
            if t.id = sid then clearSlotFields t else t)).map (fun t =>
            if t.id = sid then anchorWrite su dt.slots_required t else t)).length := by
          simpa using k.2
        have hkL1 : k.1 < ((slotsInRow db s.panel_id s.row).map (fun t =>
            if t.id = sid then clearSlotFields t else t)).length := by
          simpa using k.2
        rw [get_map_at k hkL2, get_map_at ⟨k.1, hkL2⟩ hkL1,
          get_map_at ⟨k.1, hkL1⟩ h]
        have hnmem0 : ¬ ((slotsInRow db s.panel_id s.row).get ⟨k.1, h⟩).id = sid := by
          rw [get_id_eq_iff hndL h hplt hpid0]
          omega
        have hnin : ¬ ((slotsInRow db s.panel_id s.row).get ⟨k.1, h⟩).id ∈
            (((slotsInRow db s.panel_id s.row).drop (p + 1)).take
              (dt.slots_required - 1)).map (fun u => u.id) := by
          rw [get_window_mem_iff hndL h]
          omega
        simp only []
        rw [if_neg hnmem0, if_neg hnmem0, if_neg hnin]
    · have hother3 : ∀ t ∈ slotsInRow db pid r, ¬ t.id ∈
          (((slotsInRow db s.panel_id s.row).drop (p + 1)).take
            (dt.slots_required - 1)).map (fun u => u.id) := by
        intro t ht hmem
        have htdb := (mem_slotsInRow.mp ht).1
        have hsub : ∀ u ∈ ((slotsInRow db s.panel_id s.row).drop (p + 1)).take
            (dt.slots_required - 1), u ∈ slotsInRow db s.panel_id s.row :=
          fun u hu => window_mem_row u hu
        have hpr := id_mem_row_ids hnd htdb hsub hmem
        have htr := mem_slotsInRow.mp ht
        exact hcase (by rw [← htr.2.1, ← htr.2.2]; exact ⟨hpr.1, hpr.2⟩)
      rw [map_eq_self_of (fun t ht => ?_), map_eq_self_of (fun t ht => ?_),
        map_eq_self_of (fun t ht => ?_)]
      · exact hrows pid r
      · rw [if_neg (hother pid r hcase t ht)]
      · have ht1 : t ∈ slotsInRow db pid r := by
          rw [map_eq_self_of (fun u hu => ?_)] at ht
          · exact ht
          · rw [if_neg (hother pid r hcase u hu)]
        rw [if_neg (hother pid r hcase t ht1)]
      · have ht1 : t ∈ slotsInRow db pid r := by
          rw [map_eq_self_of (fun u hu => ?_),
            map_eq_self_of (fun u hu => ?_)] at ht
          · exact ht
          · rw [if_neg (hother pid r hcase u hu)]
          · have hu1 : u ∈ slotsInRow db pid r := by
              rw [map_eq_self_of (fun v hv => ?_)] at hu
              · exact hu
              · rw [if_neg (hother pid r hcase v hv)]
            rw [if_neg (hother pid r hcase u hu1)]
        rw [if_neg (hother3 t ht1)]

theorem seedOK_gridWF {db : List Slot} (h : SeedOK db) : GridWF db := by
  obtain ⟨hnd, hfree⟩ := h
  refine ⟨hnd, fun pid r => ?_⟩
  intro i hocc hspan
  exfalso
  have hmem : (slotsInRow db pid r).get i ∈ slotsInRow db pid r :=
    List.get_mem _ _ _
  have hdb := (mem_slotsInRow.mp hmem).1
  rw [hfree _ hdb] at hocc
  exact Bool.noConfusion hocc

theorem reach_gridWF {types : List DeviceType} {db : List Slot}
    (hvw : validWidths types) (h : Reach types db) : GridWF db := by
  induction h with
  | seed db h0 => exact seedOK_gridWF h0
  | place db sid su h hrm ih => exact gridWF_update ih hvw hrm
  | rmv db sid h hrm ih => exact gridWF_remove ih hrm

theorem spanWF_dense_no_overlap {L : List Slot} (hWF : SpanWF L)
    (hdense : DenseRow L) : NoRowOverlap L := by
  intro i j hne hai haj
  rcases Nat.lt_or_ge i.1 j.1 with hij | hge
  · left
    rw [hdense i, hdense j]
    by_contra hcon
    push_neg at hcon
    have hfact := (hWF i hai.1 hai.2).2 j hij (by omega)
    have h0 := hfact.2
    have h1 := haj.2
    omega
  · rcases Nat.lt_or_ge j.1 i.1 with hji | hge2
    · right
      rw [hdense i, hdense j]
      by_contra hcon
      push_neg at hcon
      have hfact := (hWF j haj.1 haj.2).2 i hji (by omega)
      have h0 := hfact.2
      have h1 := hai.2
      omega
    · exact absurd (Fin.ext (by omega)) hne

theorem canPlace_false_occupied {db : List Slot} {types : List DeviceType}
    {sid tid : Nat} {s : Slot} {dt : DeviceType} (hnd : idsNodup db)
    (hfind : findSlot db sid = some s) (htype : findDeviceType types tid = some dt)
    (hw : 1 ≤ dt.slots_required) (hocc : s.is_occupied = true) :
    can_place_device_at_slot db types sid tid = false := by
  simp only [can_place_device_at_slot, hfind, htype]
  by_cases hw1 : dt.slots_required = 1
  · rw [if_pos hw1, hocc]
    rfl
  · rw [if_neg hw1]
    have hs_mem := findSlot_mem hfind
    have hs_id := findSlot_id hfind
    have hsrow : s ∈ slotsInRow db s.panel_id s.row :=
      mem_slotsInRow.mpr ⟨hs_mem, rfl, rfl⟩
    obtain ⟨p, hp⟩ := findSlotIndex_isSome hsrow hs_id
    simp only [hp]
    by_cases hlen : (slotsInRow db s.panel_id s.row).length < p + dt.slots_required
    · rw [if_pos hlen]
    · rw [if_neg hlen]
      have hplt : p < (slotsInRow db s.panel_id s.row).length := findSlotIndex_lt hp
      have hpid0 : ((slotsInRow db s.panel_id s.row).get ⟨p, hplt⟩).id = sid :=
        findSlotIndex_get hp hplt
      have hgetp : (slotsInRow db s.panel_id s.row).get ⟨p, hplt⟩ = s := by
        apply idInj hnd (mem_slotsInRow.mp (List.get_mem _ _ _)).1 hs_mem
        rw [hpid0, hs_id]
      have hmemw : (slotsInRow db s.panel_id s.row).get ⟨p, hplt⟩ ∈
          ((slotsInRow db s.panel_id s.row).drop p).take dt.slots_required :=
        window_get_mem hplt (le_refl p) (by omega)
      cases hall : ((slotsInRow db s.panel_id s.row).drop p).take
          dt.slots_required |>.all (fun u => !u.is_occupied)
      · rfl
      · exfalso
        have := List.all_eq_true.mp hall _ hmemw
        rw [hgetp, hocc] at this
        exact Bool.noConfusion this

theorem mem_window_mono {L : List Slot} {i w : Nat} {u : Slot}
    (h : u ∈ (L.drop (i + 1)).take (w - 1)) (hw : 1 ≤ w) :
    u ∈ (L.drop i).take w := by
  rcases List.mem_iff_get.mp h with ⟨k, hk⟩
  have hk1 : k.1 < w - 1 := by
    have := k.2; simp [List.length_take] at this; omega
  have hk2 : (i + 1) + k.1 < L.length := by
    have := k.2; simp [List.length_take, List.length_drop] at this; omega
  have hget := get_take_drop k.2 hk2
  rw [hget] at hk
  rw [← hk]
  exact window_get_mem hk2 (by omega) (by omega)

theorem clear_anchor_restore {s : Slot} {su : PanelSlotUpdate} {w : Nat}
    (hfn : freeNormal s) :
    clearSlotFields (anchorWrite su w s) =
      { s with custom_properties := setOpt su.custom_properties s.custom_properties,
               installed_date := setOpt su.installed_date s.installed_date } := by
  obtain ⟨h1, h2, h3, h4, h5, h6, h7⟩ := hfn
  cases s
  simp only [clearSlotFields, anchorWrite, applyUpdateFields] at *
  simp_all

theorem clear_cont_free {s : Slot} (hfn : freeNormal s) :
    clearSlotFields (contWrite s) = s := by
  obtain ⟨h1, h2, h3, h4, h5, h6, h7⟩ := hfn
  cases s
  simp only [clearSlotFields, contWrite] at *
  simp_all

theorem remove_state_shape {db : List Slot} {sid : Nat} {s : Slot}
    (hfind : findSlot db sid = some s) :
    ∃ g : Slot → Slot, (∀ t, (g t).id = t.id) ∧
      (remove_device_from_slot db sid).1 = db.map g := by
  by_cases hb : s.is_occupied = true ∧ 1 < s.spans_slots
  · rcases hidx : findSlotIndex (slotsInRow db s.panel_id s.row) sid with _ | idx
    · refine ⟨fun t => t, fun t => rfl, ?_⟩
      have : remove_device_from_slot db sid = (db, .ok ()) := by
        simp only [remove_device_from_slot, hfind]
        rw [if_pos hb]
        simp only [hidx]
      rw [this, List.map_id']
    · refine ⟨_, ?_, remove_big_state1 hfind hb.1 hb.2 hidx⟩
      intro t
      exact ite_slot_id _ _ t rfl
  · refine ⟨_, ?_, remove_small_state1 hfind hb⟩
    intro t
    exact ite_slot_id _ _ t rfl

/-- C1 counterexample: the no-overlap claim fails as stated.  From the seeded
three-slot row, placing the width-3 device at slot 1, removing at the
continuation slot 2 (a legal public-interface call), and placing the width-1
device at slot 2 yields two distinct anchors in row 1 whose column ranges
intersect. -/
theorem C1_no_overlap_counterexample : SeedOK exDb ∧ validWidths exCat ∧
    (update_panel_slot exDb exCat 1 exPlace3).2.isOk = true ∧
    (remove_device_from_slot exDb1 2).2.isOk = true ∧
    (update_panel_slot exDb2 exCat 2 { device_type_id := some 2 }).2.isOk = true ∧
    ¬ NoRowOverlap (slotsInRow exDb3 1 1) := by
  decide

/-- C1 (amended): starting from a freshly seeded all-free grid, after any
sequence of update_panel_slot and remove_device_from_slot calls in which
removal is never invoked on a continuation slot, and with every catalog width
at least 1, the column spans of two distinct anchors of one densely numbered
row never intersect. -/
theorem C1_no_overlap (types : List DeviceType) (db : List Slot)
    (hvw : validWidths types) (hreach : Reach types db) (pid r : Nat)
    (hdense : DenseRow (slotsInRow db pid r)) :
    NoRowOverlap (slotsInRow db pid r) :=
  spanWF_dense_no_overlap ((reach_gridWF hvw hreach).2 pid r) hdense

/-- C1 witness: the amended theorem applied to the concrete reachable state
with the width-3 device placed at slot 1. -/
theorem C1_no_overlap_witness : NoRowOverlap (slotsInRow exDb1 1 1) := by
  have h0 : Reach exCat exDb := Reach.seed exDb (by decide)
  have h1 : Reach exCat exDb1 :=
    Reach.place exDb 1 exPlace3 h0
      (fun hnone => absurd hnone (by decide))
  exact C1_no_overlap exCat exDb1 (by decide) h1 1 1 (by decide)

/-- C2 counterexample: re-placement of the same template at its own anchor is
rejected, not accepted.  Slot 1 of exDb1 anchors template 1; placing
template 1 there again fails with the 400 placement rejection and mutates
nothing. -/
theorem C2_replacement_counterexample :
    (findSlot exDb1 1).map (fun s => s.device_type_id) = some (some 1) ∧
    update_panel_slot exDb1 exCat 1 { device_type_id := some 1 } =
      (exDb1, .error .cannotPlace) := by
  decide

/-- C2 (amended): a place request whose target slot already anchors the same
template is rejected with the cannot-place error and the grid is unchanged;
can_place_device_at_slot never exempts the slots of the device being
re-placed. -/
theorem C2_replacement_rejected (db : List Slot) (types : List DeviceType)
    (sid tid : Nat) (su : PanelSlotUpdate) (s : Slot) (dt : DeviceType)
    (hnd : idsNodup db) (hfind : findSlot db sid = some s)
    (hanchor : s.device_type_id = some tid) (hocc : s.is_occupied = true)
    (hsu : su.device_type_id = some tid)
    (htype : findDeviceType types tid = some dt) (hw : 1 ≤ dt.slots_required) :
    update_panel_slot db types sid su = (db, Except.error Err.cannotPlace) :=
  update_cannot_place hfind hsu htype
    (canPlace_false_occupied hnd hfind htype hw hocc)

/-- C2 witness: the amended theorem applied to the width-3 anchor of the
fixture. -/
theorem C2_replacement_rejected_witness :
    update_panel_slot exDb1 exCat 1 { device_type_id := some 1 } =
      (exDb1, Except.error Err.cannotPlace) :=
  C2_replacement_rejected exDb1 exCat 1 1 { device_type_id := some 1 }
    ⟨1, 1, 1, 1, 1, some 1, some "main", none, some "x", true, 3, none⟩ ⟨1, 3⟩
    (by decide) (by decide) (by decide) (by decide) (by decide) (by decide)
    (by decide)

/-- C4 counterexample: the narrowing replace is rejected, not executed.  The
anchor of exDb1 holds the width-3 device; placing the width-1 device at that
anchor fails with the 400 placement rejection and the two continuation slots
stay occupied. -/
theorem C4_narrowing_counterexample :
    (findSlot exDb1 1).map (fun s => s.spans_slots) = some 3 ∧
    (findDeviceType exCat 2).map (fun t => t.slots_required) = some 1 ∧
    update_panel_slot exDb1 exCat 1 { device_type_id := some 2 } =
      (exDb1, .error .cannotPlace) := by
  decide

/-- C4 (amended): placing a width-1 device at an anchor currently holding a
width-3 device is rejected with the cannot-place error and the whole grid,
including the two continuation slots, is left unchanged — the clear-then-write
path of the executor is unreachable for an occupied anchor. -/
theorem C4_narrowing_rejected (db : List Slot) (types : List DeviceType)
    (sid tid : Nat) (su : PanelSlotUpdate) (s : Slot) (dt : DeviceType)
    (hnd : idsNodup db) (hfind : findSlot db sid = some s)
    (hocc : s.is_occupied = true) (hspan3 : s.spans_slots = 3)
    (hsu : su.device_type_id = some tid)
    (htype : findDeviceType types tid = some dt) (hw1 : dt.slots_required = 1) :
    update_panel_slot db types sid su = (db, Except.error Err.cannotPlace) ∧
    (update_panel_slot db types sid su).1 = db := by
  have h := update_cannot_place hfind hsu htype
    (canPlace_false_occupied hnd hfind htype (by omega) hocc)
  exact ⟨h, by rw [h]⟩

/-- C4 witness: the amended theorem applied to the width-3 anchor of the
fixture with the width-1 device. -/
theorem C4_narrowing_rejected_witness :
    update_panel_slot exDb1 exCat 1 { device_type_id := some 2 } =
      (exDb1, Except.error Err.cannotPlace) ∧
    (update_panel_slot exDb1 exCat 1 { device_type_id := some 2 }).1 = exDb1 :=
  C4_narrowing_rejected exDb1 exCat 1 2 { device_type_id := some 2 }
    ⟨1, 1, 1, 1, 1, some 1, some "main", none, some "x", true, 3, none⟩ ⟨2, 1⟩
    (by decide) (by decide) (by decide) (by decide) (by decide) (by decide)
    (by decide)

/-- C5 counterexample: removal at a continuation slot is not reported as a
fault.  Slot 2 of exDb1 is a continuation (occupied, spans_slots 0); removing
there returns the ordinary success message, silently frees just that slot,
and leaves the governing anchor with spans_slots 3 in place. -/
theorem C5_orphan_counterexample :
    (findSlot exDb1 2).map (fun s => (s.is_occupied, s.spans_slots)) =
      some (true, 0) ∧
    (remove_device_from_slot exDb1 2).2 = .ok () ∧
    (findSlot exDb2 2).map (fun s => s.is_occupied) = some false ∧
    (findSlot exDb2 1).map (fun s => (s.is_occupied, s.spans_slots)) =
      some (true, 3) := by
  decide

/-- C5 (amended): invoking remove on a continuation slot (occupied,
spans_slots 0) is treated by the else-branch as a single-slot device: the call
succeeds with the constant message, only that slot is reset to free normal
fields, and no OrphanContinuation fault exists — the governing anchor and its
span metadata are untouched. -/
theorem C5_orphan_continuation (db : List Slot) (sid : Nat) (s : Slot)
    (hfind : findSlot db sid = some s) (hocc : s.is_occupied = true)
    (hsp0 : s.spans_slots = 0) :
    remove_device_from_slot db sid =
      (db.map (fun t => if t.id = sid then clearSlotFields t else t),
       Except.ok ()) := by
  apply remove_small_state hfind
  intro hcon
  rw [hsp0] at hcon
  exact absurd hcon.2 (by omega)

/-- C5 witness: the amended theorem applied to the continuation slot of the
fixture. -/
theorem C5_orphan_continuation_witness :
    remove_device_from_slot exDb1 2 =
      (exDb1.map (fun t => if t.id = 2 then clearSlotFields t else t),
       Except.ok ()) :=
  C5_orphan_continuation exDb1 2
    ⟨2, 1, 2, 1, 2, none, none, none, none, true, 0, none⟩
    (by decide) (by decide) (by decide)

/-- C6: failure atomicity of placement.  Whenever update_panel_slot returns
any of its errors (slot missing, device type missing, or the 400 placement
rejection covering insufficient space and occupied slots), the returned grid
state is exactly the input state — no slot field is mutated. -/
theorem C6_failure_atomicity (db : List Slot) (types : List DeviceType)
    (sid : Nat) (su : PanelSlotUpdate) (dbf : List Slot) (e : Err)
    (h : update_panel_slot db types sid su = (dbf, Except.error e)) :
    dbf = db := by
  rcases hfind : findSlot db sid with _ | s
  · rw [update_slot_missing hfind] at h
    exact (congrArg Prod.fst h).symm
  rcases hsu : su.device_type_id with _ | tid
  · obtain ⟨g, hgid, hshape⟩ := remove_state_shape hfind
    have hf1 : findSlot (remove_device_from_slot db sid).1 sid = some (g s) := by
      rw [hshape, findSlot_map hgid, hfind]
      rfl
    rw [update_none_ok hfind hsu hf1] at h
    simp at h
  rcases htype : findDeviceType types tid with _ | dt
  · rw [update_type_missing hfind hsu htype] at h
    exact (congrArg Prod.fst h).symm
  by_cases hcan : can_place_device_at_slot db types sid tid = true
  · simp only [update_panel_slot, hfind, hsu, htype] at h
    rw [if_neg (fun hcon => hcon hcan)] at h
    obtain ⟨g, hgid, hshape⟩ := remove_state_shape hfind
    rcases hrm : remove_device_from_slot db sid with ⟨db1, res⟩
    rw [hrm] at h
    have hres : res = .ok () := by
      have := remove_ok_of_found hfind
      rw [hrm] at this
      exact this
    subst hres
    simp only [] at h
    have hdb1 : db1 = db.map g := by
      rw [← hshape, hrm]
    subst hdb1
    have hf2 : findSlot ((db.map g).map (fun t =>
        if t.id = sid then anchorWrite su dt.slots_required t else t)) sid =
        some ((fun t => if t.id = sid then anchorWrite su dt.slots_required t
          else t) (g s)) := by
      rw [findSlot_map (fun t => ite_slot_id _ _ t rfl), findSlot_map hgid, hfind]
      rfl
    by_cases hwb : 1 < dt.slots_required
    · rw [if_pos hwb] at h
      rcases hidx2 : findSlotIndex (slotsInRow ((db.map g).map (fun t =>
          if t.id = sid then anchorWrite su dt.slots_required t else t))
          s.panel_id s.row) sid with _ | idx
      · rw [hidx2] at h
        simp only [] at h
        simp only [hf2] at h
        simp at h
      · rw [hidx2] at h
        simp only [] at h
        have hf3 : findSlot (((db.map g).map (fun t =>
            if t.id = sid then anchorWrite su dt.slots_required t else t)).map
            (fun t => if t.id ∈ (((slotsInRow ((db.map g).map (fun t =>
              if t.id = sid then anchorWrite su dt.slots_required t else t))
              s.panel_id s.row).drop (idx + 1)).take (dt.slots_required - 1)).map
              (fun u => u.id) then contWrite t else t)) sid =
            some ((fun t => if t.id ∈ (((slotsInRow ((db.map g).map (fun t =>
              if t.id = sid then anchorWrite su dt.slots_required t else t))
              s.panel_id s.row).drop (idx + 1)).take (dt.slots_required - 1)).map
              (fun u => u.id) then contWrite t else t)
              ((fun t => if t.id = sid then anchorWrite su dt.slots_required t
                else t) (g s))) := by
          rw [findSlot_map (fun t => ite_slot_id _ _ t rfl), hf2]
          rfl
        simp only [hf3] at h
        simp at h
    · rw [if_neg hwb] at h
      simp only [hf2] at h
      simp at h
  · have hcanf : can_place_device_at_slot db types sid tid = false := by
      cases hx : can_place_device_at_slot db types sid tid
      · rfl
      · exact absurd hx hcan
    rw [update_cannot_place hfind hsu htype hcanf] at h
    exact (congrArg Prod.fst h).symm

/-- C6 witness: the theorem applied to a concrete rejected request — placing
over the occupied anchor of the fixture. -/
theorem C6_failure_atomicity_witness : exDb1 = exDb1 :=
  C6_failure_atomicity exDb1 exCat 1 { device_type_id := some 1 } exDb1
    Err.cannotPlace (by decide)

/-- C7: a placement whose anchor position i in the ordered row satisfies
i + width > row length is rejected with the 400 placement rejection (the
detail text of which names insufficient consecutive free slots) and the grid
is unchanged; and every successful placement satisfies row containment:
anchor column + width - 1 never exceeds the row length.  Columns are related
to row positions through the dense numbering produced by panel seeding. -/
theorem C7_insufficient_space (db : List Slot) (types : List DeviceType)
    (sid tid : Nat) (su : PanelSlotUpdate) (s : Slot) (dt : DeviceType)
    (idx : Nat) (hnd : idsNodup db) (hfind : findSlot db sid = some s)
    (hsu : su.device_type_id = some tid)
    (htype : findDeviceType types tid = some dt)
    (hidx : findSlotIndex (slotsInRow db s.panel_id s.row) sid = some idx)
    (hw : 1 ≤ dt.slots_required)
    (hdense : DenseRow (slotsInRow db s.panel_id s.row)) :
    ((slotsInRow db s.panel_id s.row).length < idx + dt.slots_required →
      update_panel_slot db types sid su = (db, Except.error Err.cannotPlace)) ∧
    ((update_panel_slot db types sid su).2.isOk = true →
      s.column + dt.slots_required - 1 ≤ (slotsInRow db s.panel_id s.row).length) := by
  have hidxlt : idx < (slotsInRow db s.panel_id s.row).length :=
    findSlotIndex_lt hidx
  have hpid0 : ((slotsInRow db s.panel_id s.row).get ⟨idx, hidxlt⟩).id = sid :=
    findSlotIndex_get hidx hidxlt
  have hgetp : (slotsInRow db s.panel_id s.row).get ⟨idx, hidxlt⟩ = s := by
    apply idInj hnd (mem_slotsInRow.mp (List.get_mem _ _ _)).1 (findSlot_mem hfind)
    rw [hpid0, findSlot_id hfind]
  have hcol : s.column = idx + 1 := by
    rw [← hgetp]
    exact hdense ⟨idx, hidxlt⟩
  constructor
  · intro hlen
    by_cases hw1 : dt.slots_required = 1
    · exact absurd hlen (by omega)
    · have hcanf : can_place_device_at_slot db types sid tid = false := by
        simp only [can_place_device_at_slot, hfind, htype]
        rw [if_neg hw1]
        simp only [hidx]
        rw [if_pos hlen]
      exact update_cannot_place hfind hsu htype hcanf
  · intro hok
    have hcan : can_place_device_at_slot db types sid tid = true := by
      cases hx : can_place_device_at_slot db types sid tid
      · rw [update_cannot_place hfind hsu htype hx] at hok
        exact Bool.noConfusion hok
      · rfl
    rcases canPlace_spec hfind htype hcan with ⟨hw1, _⟩ |
      ⟨hw1, idx2, hidx2, hfit2, _⟩
    · omega
    · rw [hidx] at hidx2
      injection hidx2 with hidx2
      omega

/-- C7 witness: the theorem applied to the successful width-3 placement at
column 1 of the three-slot fixture row; the containment bound 1 + 3 - 1 is
at most the row length 3. -/
theorem C7_insufficient_space_witness :
    (mkFreeSlot 1 1 1 1 1).column + (3 : Nat) - 1 ≤
      (slotsInRow exDb 1 1).length := by
  have h := (C7_insufficient_space exDb exCat 1 1 exPlace3
    (mkFreeSlot 1 1 1 1 1) ⟨1, 3⟩ 0 (by decide) (by decide) (by decide)
    (by decide) (by decide) (by decide) (by decide)).2 (by decide)
  exact h

/-- C9: idempotent removal.  Removing an existing slot that is in free normal
form leaves the whole grid state unchanged and returns only the constant
success message (no changed slots are reported because no slot set is ever
returned); composing the removal with itself equals a single removal. -/
theorem C9_idempotent_removal (db : List Slot) (sid : Nat) (s : Slot)
    (hnd : idsNodup db) (hfind : findSlot db sid = some s)
    (hfn : freeNormal s) :
    remove_device_from_slot db sid = (db, Except.ok ()) ∧
    remove_device_from_slot (remove_device_from_slot db sid).1 sid =
      remove_device_from_slot db sid := by
  have hns : ¬(s.is_occupied = true ∧ 1 < s.spans_slots) := by
    intro hcon
    rw [hfn.1] at hcon
    exact Bool.noConfusion hcon.1
  have hclear : clearSlotFields s = s := by
    obtain ⟨h1, h2, h3, h4, h5, h6, h7⟩ := hfn
    cases s
    simp only [clearSlotFields] at *
    simp_all
  have hgate : ∀ t ∈ db, (if t.id = sid then clearSlotFields t else t) = t := by
    intro t ht
    by_cases hid : t.id = sid
    · rw [if_pos hid]
      have hts : t = s :=
        idInj hnd ht (findSlot_mem hfind) (by rw [hid, findSlot_id hfind])
      rw [hts, hclear]
    · rw [if_neg hid]
  have h1 : remove_device_from_slot db sid = (db, Except.ok ()) := by
    rw [remove_small_state hfind hns, map_eq_self_of hgate]
  refine ⟨h1, ?_⟩
  rw [h1]
  exact h1

/-- C9 witness: the theorem applied to the free slot 1 of the seeded
fixture. -/
theorem C9_idempotent_removal_witness :
    remove_device_from_slot exDb 1 = (exDb, Except.ok ()) ∧
    remove_device_from_slot (remove_device_from_slot exDb 1).1 1 =
      remove_device_from_slot exDb 1 :=
  C9_idempotent_removal exDb 1 (mkFreeSlot 1 1 1 1 1) (by decide) (by decide)
    (by decide)

/-- C8 counterexample: the result of a successful operation does not contain
every changed slot.  Placing the width-2 device at slot 1 changes both slot 1
and slot 2, yet the endpoint returns only the single refreshed anchor slot
(id 1); the removal endpoint returns only a constant message and never any
slot. -/
theorem C8_changed_set_counterexample :
    update_panel_slot exDb exCat 1 exPlace2 =
      (exDb8, .ok ⟨1, 1, 1, 1, 1, some 3, none, none, none, true, 2, none⟩) ∧
    findSlot exDb8 2 ≠ findSlot exDb 2 ∧
    (1 : Nat) ≠ 2 := by
  decide

/-- C8 (amended): on success update_panel_slot returns exactly one slot — the
refreshed primary slot looked up by the requested id in the new state — never
the full changed set; and remove_device_from_slot returns no slot data at
all, only the constant message (or the 404). -/
theorem C8_changed_set :
    (∀ (db : List Slot) (types : List DeviceType) (sid : Nat)
      (su : PanelSlotUpdate) (dbf : List Slot) (a : Slot),
      update_panel_slot db types sid su = (dbf, Except.ok a) →
      findSlot dbf sid = some a) ∧
    (∀ (db : List Slot) (sid : Nat),
      (remove_device_from_slot db sid).2 = Except.ok () ∨
      (remove_device_from_slot db sid).2 = Except.error Err.slotNotFound) := by
  constructor
  · intro db types sid su dbf a h
    exact update_ok_refresh h
  · intro db sid
    rcases hfind : findSlot db sid with _ | s
    · right
      rw [remove_not_found hfind]
    · left
      exact remove_ok_of_found hfind

/-- C8 witness: the amended theorem applied to the concrete width-2 placement
and to a concrete removal. -/
theorem C8_changed_set_witness :
    findSlot exDb8 1 =
      some ⟨1, 1, 1, 1, 1, some 3, none, none, none, true, 2, none⟩ ∧
    ((remove_device_from_slot exDb 1).2 = Except.ok () ∨
     (remove_device_from_slot exDb 1).2 = Except.error Err.slotNotFound) :=
  ⟨C8_changed_set.1 exDb exCat 1 exPlace2 exDb8 _ (by decide),
   C8_changed_set.2 exDb 1⟩

/-- C10: update_panel_slot with no device type reference in the request body
performs the removal algorithm on the slot: the new state is exactly the
removal state, the call succeeds returning the refreshed slot with device
reference, label and current setting cleared and the slot unoccupied, and
every slot of the cleared span (clearedIds) ends unoccupied with its
reference, label and setting cleared. -/
theorem C10_update_none_removes (db : List Slot) (types : List DeviceType)
    (sid : Nat) (su : PanelSlotUpdate) (s : Slot)
    (hfind : findSlot db sid = some s) (hsu : su.device_type_id = none) :
    (update_panel_slot db types sid su).1 = (remove_device_from_slot db sid).1 ∧
    (∃ s1, update_panel_slot db types sid su =
        ((remove_device_from_slot db sid).1, Except.ok s1) ∧
      s1.device_type_id = none ∧ s1.device_label = none ∧
      s1.current_setting = none ∧ s1.is_occupied = false) ∧
    (∀ t ∈ (update_panel_slot db types sid su).1, t.id ∈ clearedIds db sid →
      t.device_type_id = none ∧ t.device_label = none ∧
      t.current_setting = none ∧ t.is_occupied = false) := by
  have hs_id := findSlot_id hfind
  have hs_mem := findSlot_mem hfind
  refine ⟨update_none_state hfind hsu, ?_, ?_⟩
  · by_cases hb : s.is_occupied = true ∧ 1 < s.spans_slots
    · have hsrow : s ∈ slotsInRow db s.panel_id s.row :=
        mem_slotsInRow.mpr ⟨hs_mem, rfl, rfl⟩
      obtain ⟨idx, hidx⟩ := findSlotIndex_isSome hsrow hs_id
      have hidxlt : idx < (slotsInRow db s.panel_id s.row).length :=
        findSlotIndex_lt hidx
      have hmemids : s.id ∈ (((slotsInRow db s.panel_id s.row).drop idx).take
          s.spans_slots).map (fun u => u.id) := by
        apply List.mem_map.mpr
        refine ⟨(slotsInRow db s.panel_id s.row).get ⟨idx, hidxlt⟩,
          window_get_mem hidxlt (le_refl idx) (by omega), ?_⟩
        rw [findSlotIndex_get hidx hidxlt, hs_id]
      have hf1 : findSlot (remove_device_from_slot db sid).1 sid =
          some (clearSlotFields s) := by
        rw [remove_big_state1 hfind hb.1 hb.2 hidx,
          findSlot_map (fun t => ite_slot_id _ _ t rfl), hfind]
        simp only [Option.map_some']
        rw [if_pos hmemids]
      exact ⟨clearSlotFields s, update_none_ok hfind hsu hf1, rfl, rfl, rfl, rfl⟩
    · have hf1 : findSlot (remove_device_from_slot db sid).1 sid =
          some (clearSlotFields s) := by
        rw [remove_small_state1 hfind hb,
          findSlot_map (fun t => ite_slot_id _ _ t rfl), hfind]
        simp only [Option.map_some']
        rw [if_pos hs_id]
      exact ⟨clearSlotFields s, update_none_ok hfind hsu hf1, rfl, rfl, rfl, rfl⟩
  · intro t ht hmem
    rw [update_none_state hfind hsu] at ht
    by_cases hb : s.is_occupied = true ∧ 1 < s.spans_slots
    · have hsrow : s ∈ slotsInRow db s.panel_id s.row :=
        mem_slotsInRow.mpr ⟨hs_mem, rfl, rfl⟩
      obtain ⟨idx, hidx⟩ := findSlotIndex_isSome hsrow hs_id
      have hcid : clearedIds db sid = (((slotsInRow db s.panel_id
          s.row).drop idx).take s.spans_slots).map (fun u => u.id) := by
        simp only [clearedIds, hfind]
        rw [if_pos hb]
        simp only [hidx]
      rw [remove_big_state1 hfind hb.1 hb.2 hidx] at ht
      rcases List.mem_map.mp ht with ⟨u, hu, hut⟩
      by_cases hgu : u.id ∈ (((slotsInRow db s.panel_id s.row).drop idx).take
          s.spans_slots).map (fun v => v.id)
      · rw [if_pos hgu] at hut
        rw [← hut]
        exact ⟨rfl, rfl, rfl, rfl⟩
      · rw [if_neg hgu] at hut
        rw [hcid, ← hut] at hmem
        exact absurd hmem hgu
    · have hcid : clearedIds db sid = [sid] := by
        simp only [clearedIds, hfind]
        rw [if_neg hb]
      rw [remove_small_state1 hfind hb] at ht
      rcases List.mem_map.mp ht with ⟨u, hu, hut⟩
      by_cases hgu : u.id = sid
      · rw [if_pos hgu] at hut
        rw [← hut]
        exact ⟨rfl, rfl, rfl, rfl⟩
      · rw [if_neg hgu] at hut
        rw [hcid, ← hut] at hmem
        simp at hmem
        exact absurd hmem hgu

/-- C10 witness: the theorem applied to the fixture with the width-3 device
placed, requesting an update with an absent device type reference. -/
theorem C10_update_none_removes_witness :
    (update_panel_slot exDb1 exCat 1 {}).1 = (remove_device_from_slot exDb1 1).1 ∧
    (∃ s1, update_panel_slot exDb1 exCat 1 {} =
        ((remove_device_from_slot exDb1 1).1, Except.ok s1) ∧
      s1.device_type_id = none ∧ s1.device_label = none ∧
      s1.current_setting = none ∧ s1.is_occupied = false) ∧
    (∀ t ∈ (update_panel_slot exDb1 exCat 1 {}).1, t.id ∈ clearedIds exDb1 1 →
      t.device_type_id = none ∧ t.device_label = none ∧
      t.current_setting = none ∧ t.is_occupied = false) :=
  C10_update_none_removes exDb1 exCat 1 {}
    ⟨1, 1, 1, 1, 1, some 1, some "main", none, some "x", true, 3, none⟩
    (by decide) (by decide)

theorem window_ids_mem_elim {L : List Slot} {i w a : Nat}
    (h : a ∈ ((L.drop i).take w).map (fun u => u.id)) :
    ∃ (j : Nat) (hj : j < L.length), i ≤ j ∧ j < i + w ∧ (L.get ⟨j, hj⟩).id = a := by
  rcases List.mem_map.mp h with ⟨u, hu, hua⟩
  rcases List.mem_iff_get.mp hu with ⟨k, hk⟩
  have hk1 : k.1 < w := by
    have := k.2; simp [List.length_take] at this; omega
  have hk2 : i + k.1 < L.length := by
    have := k.2; simp [List.length_take, List.length_drop] at this; omega
  refine ⟨i + k.1, hk2, by omega, by omega, ?_⟩
  rw [← get_take_drop k.2 hk2, hk]
  exact hua

theorem update_ok_of_valid {db : List Slot} {types : List DeviceType}
    {sid tid : Nat} {su : PanelSlotUpdate} {s : Slot} {dt : DeviceType}
    (hfind : findSlot db sid = some s) (hsu : su.device_type_id = some tid)
    (htype : findDeviceType types tid = some dt)
    (hcan : can_place_device_at_slot db types sid tid = true)
    (hns : ¬(s.is_occupied = true ∧ 1 < s.spans_slots)) :
    (update_panel_slot db types sid su).2.isOk = true := by
  rw [update_place_pair hfind hsu htype hcan hns]
  simp only []
  have hf2 : findSlot ((db.map (fun t => if t.id = sid then clearSlotFields t
      else t)).map (fun t => if t.id = sid then anchorWrite su dt.slots_required t
      else t)) sid =
      some ((fun t => if t.id = sid then anchorWrite su dt.slots_required t
        else t) ((fun t => if t.id = sid then clearSlotFields t else t) s)) := by
    rw [findSlot_map (fun t => ite_slot_id _ _ t rfl),
      findSlot_map (fun t => ite_slot_id _ _ t rfl), hfind]
    rfl
  by_cases hwb : 1 < dt.slots_required
  · rw [if_pos hwb]
    rcases hidx2 : findSlotIndex (slotsInRow ((db.map (fun t =>
        if t.id = sid then clearSlotFields t else t)).map (fun t =>
        if t.id = sid then anchorWrite su dt.slots_required t else t))
        s.panel_id s.row) sid with _ | idx
    · rw [hidx2]
      simp only [hf2]
      rfl
    · rw [hidx2]
      simp only []
      have hf3 : findSlot (((db.map (fun t => if t.id = sid then clearSlotFields t
          else t)).map (fun t => if t.id = sid then anchorWrite su
          dt.slots_required t else t)).map (fun t => if t.id ∈ (((slotsInRow
          ((db.map (fun t => if t.id = sid then clearSlotFields t else t)).map
          (fun t => if t.id = sid then anchorWrite su dt.slots_required t else t))
          s.panel_id s.row).drop (idx + 1)).take (dt.slots_required - 1)).map
          (fun u => u.id) then contWrite t else t)) sid =
          some ((fun t => if t.id ∈ (((slotsInRow ((db.map (fun t =>
            if t.id = sid then clearSlotFields t else t)).map (fun t =>
            if t.id = sid then anchorWrite su dt.slots_required t else t))
            s.panel_id s.row).drop (idx + 1)).take (dt.slots_required - 1)).map
            (fun u => u.id) then contWrite t else t)
            ((fun t => if t.id = sid then anchorWrite su dt.slots_required t
              else t) ((fun t => if t.id = sid then clearSlotFields t else t)
              s))) := by
        rw [findSlot_map (fun t => ite_slot_id _ _ t rfl), hf2]
        rfl
      simp only [hf3]
      rfl
  · rw [if_neg hwb]
    simp only [hf2]
    rfl

/-- C3 counterexample: the round trip is not bit-for-bit.  Placing the
width-3 device with custom_properties "x" at the free slot 1 and removing at
the same anchor succeeds, but the anchor keeps custom_properties "x", so the
final state differs from the all-free pre-placement state. -/
theorem C3_round_trip_counterexample : (∀ s ∈ exDb, freeNormal s) ∧
    (update_panel_slot exDb exCat 1 exPlace3).2.isOk = true ∧
    (remove_device_from_slot exDb1 1).2.isOk = true ∧
    (remove_device_from_slot exDb1 1).1 ≠ exDb ∧
    (findSlot (remove_device_from_slot exDb1 1).1 1).map
      (fun s => s.custom_properties) = some (some "x") := by
  decide

set_option maxHeartbeats 2000000 in
/-- C3 (amended): placing a width-w device at an anchor whose w-slot window is
in free normal form and then removing at the same anchor succeeds and
restores every slot of the grid except that the anchor keeps the
custom_properties and installed_date provided in the placement request; when
the request provides neither, the round trip is the identity on the grid. -/
theorem C3_round_trip (db : List Slot) (types : List DeviceType) (sid tid : Nat)
    (su : PanelSlotUpdate) (s : Slot) (dt : DeviceType) (idx : Nat)
    (hnd : idsNodup db) (hfind : findSlot db sid = some s)
    (hsu : su.device_type_id = some tid)
    (htype : findDeviceType types tid = some dt)
    (hidx : findSlotIndex (slotsInRow db s.panel_id s.row) sid = some idx)
    (hw : 1 ≤ dt.slots_required)
    (hfit : idx + dt.slots_required ≤ (slotsInRow db s.panel_id s.row).length)
    (hfree : ∀ u ∈ ((slotsInRow db s.panel_id s.row).drop idx).take
      dt.slots_required, freeNormal u) :
    can_place_device_at_slot db types sid tid = true ∧
    (update_panel_slot db types sid su).2.isOk = true ∧
    (remove_device_from_slot (update_panel_slot db types sid su).1 sid).1 =
      db.map (fun t => if t.id = sid then
        { t with
            custom_properties := setOpt su.custom_properties t.custom_properties,
            installed_date := setOpt su.installed_date t.installed_date }
      else t) ∧
    (su.custom_properties = none → su.installed_date = none →
      (remove_device_from_slot (update_panel_slot db types sid su).1 sid).1 = db) := by
  have hs_id := findSlot_id hfind
  have hs_mem := findSlot_mem hfind
  have hidxlt : idx < (slotsInRow db s.panel_id s.row).length :=
    findSlotIndex_lt hidx
  have hpid0 : ((slotsInRow db s.panel_id s.row).get ⟨idx, hidxlt⟩).id = sid :=
    findSlotIndex_get hidx hidxlt
  have hgetp : (slotsInRow db s.panel_id s.row).get ⟨idx, hidxlt⟩ = s := by
    apply idInj hnd (mem_slotsInRow.mp (List.get_mem _ _ _)).1 hs_mem
    rw [hpid0, hs_id]
  have hndL : idsNodup (slotsInRow db s.panel_id s.row) :=
    idsNodup_slotsInRow hnd _ _
  have hfnS : freeNormal s := by
    have := hfree _ (window_get_mem hidxlt (le_refl idx) (by omega))
    rw [hgetp] at this
    exact this
  have hso : s.is_occupied = false := hfnS.1
  have hns : ¬(s.is_occupied = true ∧ 1 < s.spans_slots) := by
    intro hcon
    rw [hso] at hcon
    exact Bool.noConfusion hcon.1
  have hcan : can_place_device_at_slot db types sid tid = true := by
    simp only [can_place_device_at_slot, hfind, htype]
    by_cases hw1 : dt.slots_required = 1
    · rw [if_pos hw1, hso]
      rfl
    · rw [if_neg hw1]
      simp only [hidx]
      rw [if_neg (by omega)]
      apply List.all_eq_true.mpr
      intro u hu
      rw [(hfree u hu).1]
      rfl
  have hclearS : clearSlotFields s = s := by
    obtain ⟨h1, h2, h3, h4, h5, h6, h7⟩ := hfnS
    cases s
    simp only [clearSlotFields] at *
    simp_all
  have hdb1 : db.map (fun t => if t.id = sid then clearSlotFields t else t)
      = db := by
    apply map_eq_self_of
    intro t ht
    by_cases hid : t.id = sid
    · rw [if_pos hid]
      have hts : t = s := idInj hnd ht hs_mem (by rw [hid, hs_id])
      rw [hts, hclearS]
    · rw [if_neg hid]
  have hg1id : ∀ t : Slot, ((fun t =>
      if t.id = sid then clearSlotFields t else t) t).id = t.id :=
    fun t => ite_slot_id _ _ t rfl
  have hg2id : ∀ t : Slot, ((fun t =>
      if t.id = sid then anchorWrite su dt.slots_required t else t) t).id = t.id :=
    fun t => ite_slot_id _ _ t rfl
  have hg1pid : ∀ t : Slot, ((fun t =>
      if t.id = sid then clearSlotFields t else t) t).panel_id = t.panel_id :=
    fun t => ite_slot_pid _ _ t rfl
  have hg1row : ∀ t : Slot, ((fun t =>
      if t.id = sid then clearSlotFields t else t) t).row = t.row :=
    fun t => ite_slot_row _ _ t rfl
  have hg1col : ∀ t : Slot, ((fun t =>
      if t.id = sid then clearSlotFields t else t) t).column = t.column :=
    fun t => ite_slot_col _ _ t rfl
  have hg2pid : ∀ t : Slot, ((fun t =>
      if t.id = sid then anchorWrite su dt.slots_required t else t) t).panel_id
      = t.panel_id :=
    fun t => ite_slot_pid _ _ t rfl
  have hg2row : ∀ t : Slot, ((fun t =>
      if t.id = sid then anchorWrite su dt.slots_required t else t) t).row
      = t.row :=
    fun t => ite_slot_row _ _ t rfl
  have hg2col : ∀ t : Slot, ((fun t =>
      if t.id = sid then anchorWrite su dt.slots_required t else t) t).column
      = t.column :=
    fun t => ite_slot_col _ _ t rfl
  have hmain : (remove_device_from_slot (update_panel_slot db types sid su).1
      sid).1 = db.map (fun t => if t.id = sid then
        { t with
            custom_properties := setOpt su.custom_properties t.custom_properties,
            installed_date := setOpt su.installed_date t.installed_date }
      else t) := by
    by_cases hwb : 1 < dt.slots_required
    · -- multi-slot round trip
      have hrow2 : slotsInRow ((db.map (fun t =>
          if t.id = sid then clearSlotFields t else t)).map (fun t =>
          if t.id = sid then anchorWrite su dt.slots_required t else t))
          s.panel_id s.row =
          ((slotsInRow db s.panel_id s.row).map (fun t =>
            if t.id = sid then clearSlotFields t else t)).map (fun t =>
            if t.id = sid then anchorWrite su dt.slots_required t else t) := by
        rw [slotsInRow_map hg2pid hg2row hg2col, slotsInRow_map hg1pid hg1row hg1col]
      have hidx2 : findSlotIndex (slotsInRow ((db.map (fun t =>
          if t.id = sid then clearSlotFields t else t)).map (fun t =>
          if t.id = sid then anchorWrite su dt.slots_required t else t))
          s.panel_id s.row) sid = some idx := by
        rw [hrow2, findSlotIndex_map hg2id, findSlotIndex_map hg1id]
        exact hidx
      rw [update_place_state_big hfind hsu htype hcan hns hwb hidx2]
      simp only [hrow2, window_ids_map hg2id, window_ids_map hg1id]
      simp only [hdb1]
      have hg3id : ∀ t : Slot, ((fun t => if t.id ∈
          (((slotsInRow db s.panel_id s.row).drop (idx + 1)).take
            (dt.slots_required - 1)).map (fun u => u.id)
          then contWrite t else t) t).id = t.id :=
        fun t => ite_slot_id _ _ t rfl
      have hg3pid : ∀ t : Slot, ((fun t => if t.id ∈
          (((slotsInRow db s.panel_id s.row).drop (idx + 1)).take
            (dt.slots_required - 1)).map (fun u => u.id)
          then contWrite t else t) t).panel_id = t.panel_id :=
        fun t => ite_slot_pid _ _ t rfl
      have hg3row : ∀ t : Slot, ((fun t => if t.id ∈
          (((slotsInRow db s.panel_id s.row).drop (idx + 1)).take
            (dt.slots_required - 1)).map (fun u => u.id)
          then contWrite t else t) t).row = t.row :=
        fun t => ite_slot_row _ _ t rfl
      have hg3col : ∀ t : Slot, ((fun t => if t.id ∈
          (((slotsInRow db s.panel_id s.row).drop (idx + 1)).take
            (dt.slots_required - 1)).map (fun u => u.id)
          then contWrite t else t) t).column = t.column :=
        fun t => ite_slot_col _ _ t rfl
      have hnin_sid : ¬ (s.id ∈ (((slotsInRow db s.panel_id s.row).drop
          (idx + 1)).take (dt.slots_required - 1)).map (fun u => u.id)) := by
        intro hmem
        obtain ⟨j, hj, hj1, hj2, hjid⟩ := window_ids_mem_elim hmem
        have hjs : ((slotsInRow db s.panel_id s.row).get ⟨j, hj⟩).id = sid := by
          rw [hjid, hs_id]
        rw [get_id_eq_iff hndL hj hidxlt hpid0] at hjs
        omega
      have hninA : ¬ ((anchorWrite su dt.slots_required s).id ∈
          (((slotsInRow db s.panel_id s.row).drop (idx + 1)).take
            (dt.slots_required - 1)).map (fun u => u.id)) := hnin_sid
      have hfind3 : findSlot ((db.map (fun t =>
          if t.id = sid then anchorWrite su dt.slots_required t else t)).map
          (fun t => if t.id ∈ (((slotsInRow db s.panel_id s.row).drop
            (idx + 1)).take (dt.slots_required - 1)).map (fun u => u.id)
            then contWrite t else t)) sid =
          some (anchorWrite su dt.slots_required s) := by
        rw [findSlot_map hg3id, findSlot_map hg2id, hfind]
        simp only [Option.map_some']
        rw [if_pos hs_id, if_neg hninA]
      have hocc3 : (anchorWrite su dt.slots_required s).is_occupied = true := rfl
      have hsp3 : 1 < (anchorWrite su dt.slots_required s).spans_slots := hwb
      have hrow3 : slotsInRow ((db.map (fun t =>
          if t.id = sid then anchorWrite su dt.slots_required t else t)).map
          (fun t => if t.id ∈ (((slotsInRow db s.panel_id s.row).drop
            (idx + 1)).take (dt.slots_required - 1)).map (fun u => u.id)
            then contWrite t else t))
          (anchorWrite su dt.slots_required s).panel_id
          (anchorWrite su dt.slots_required s).row =
          ((slotsInRow db s.panel_id s.row).map (fun t =>
            if t.id = sid then anchorWrite su dt.slots_required t else t)).map
            (fun t => if t.id ∈ (((slotsInRow db s.panel_id s.row).drop
              (idx + 1)).take (dt.slots_required - 1)).map (fun u => u.id)
              then contWrite t else t) := by
        rw [slotsInRow_map hg3pid hg3row hg3col, slotsInRow_map hg2pid hg2row hg2col]
        have hA_pid : (anchorWrite su dt.slots_required s).panel_id = s.panel_id := rfl
        have hA_row : (anchorWrite su dt.slots_required s).row = s.row := rfl
        rw [hA_pid, hA_row]
      have hidx3 : findSlotIndex (slotsInRow ((db.map (fun t =>
          if t.id = sid then anchorWrite su dt.slots_required t else t)).map
          (fun t => if t.id ∈ (((slotsInRow db s.panel_id s.row).drop
            (idx + 1)).take (dt.slots_required - 1)).map (fun u => u.id)
            then contWrite t else t))
          (anchorWrite su dt.slots_required s).panel_id
          (anchorWrite su dt.slots_required s).row) sid = some idx := by
        rw [hrow3, findSlotIndex_map hg3id, findSlotIndex_map hg2id]
        exact hidx
      rw [remove_big_state1 hfind3 hocc3 hsp3 hidx3]
      have hAspans : (anchorWrite su dt.slots_required s).spans_slots =
          dt.slots_required := rfl
      simp only [hrow3, window_ids_map hg3id, window_ids_map hg2id, hAspans]
      rw [List.map_map, List.map_map]
      apply List.map_congr_left
      intro t ht
      simp only [Function.comp_apply]
      by_cases hsid : t.id = sid
      · have hts : t = s := idInj hnd ht hs_mem (by rw [hsid, hs_id])
        rw [hts]
        rw [if_pos hs_id, if_neg hninA]
        have hmemA : (anchorWrite su dt.slots_required s).id ∈
            (((slotsInRow db s.panel_id s.row).drop idx).take
              dt.slots_required).map (fun u => u.id) := by
          show s.id ∈ _
          apply List.mem_map.mpr
          exact ⟨(slotsInRow db s.panel_id s.row).get ⟨idx, hidxlt⟩,
            window_get_mem hidxlt (le_refl idx) (by omega),
            by rw [hgetp]⟩
        rw [if_pos hmemA, clear_anchor_restore hfnS, if_pos hs_id]
      · rw [if_neg hsid]
        by_cases hcont : t.id ∈ (((slotsInRow db s.panel_id s.row).drop
            (idx + 1)).take (dt.slots_required - 1)).map (fun u => u.id)
        · obtain ⟨j, hj, hj1, hj2, hjid⟩ := window_ids_mem_elim hcont
          have htj : t = (slotsInRow db s.panel_id s.row).get ⟨j, hj⟩ :=
            idInj hnd ht (mem_slotsInRow.mp (List.get_mem _ _ _)).1 hjid.symm
          have hfnT : freeNormal t := by
            rw [htj]
            exact hfree _ (window_get_mem hj (by omega) (by omega))
          rw [if_pos hcont]
          have hcw_mem : (contWrite t).id ∈ (((slotsInRow db s.panel_id
              s.row).drop idx).take dt.slots_required).map (fun u => u.id) := by
            show t.id ∈ _
            apply List.mem_map.mpr
            exact ⟨(slotsInRow db s.panel_id s.row).get ⟨j, hj⟩,
              window_get_mem hj (by omega) (by omega), hjid⟩
          rw [if_pos hcw_mem, clear_cont_free hfnT, if_neg hsid]
        · rw [if_neg hcont]
          have hnfull : ¬ (t.id ∈ (((slotsInRow db s.panel_id s.row).drop
              idx).take dt.slots_required).map (fun u => u.id)) := by
            intro hmem
            obtain ⟨j, hj, hj1, hj2, hjid⟩ := window_ids_mem_elim hmem
            by_cases hjidx : j = idx
            · apply hsid
              rw [← hjid]
              subst hjidx
              exact hpid0
            · apply hcont
              rw [← hjid]
              exact (get_window_mem_iff hndL hj).mpr ⟨by omega, by omega⟩
          rw [if_neg hnfull, if_neg hsid]
    · -- width-1 round trip
      rw [update_place_state_w1 hfind hsu htype hcan hns hwb, hdb1]
      have hfind2 : findSlot (db.map (fun t =>
          if t.id = sid then anchorWrite su dt.slots_required t else t)) sid =
          some (anchorWrite su dt.slots_required s) := by
        rw [findSlot_map hg2id, hfind]
        simp only [Option.map_some']
        rw [if_pos hs_id]
      have hns2 : ¬((anchorWrite su dt.slots_required s).is_occupied = true ∧
          1 < (anchorWrite su dt.slots_required s).spans_slots) := by
        intro hcon
        have hsp : (anchorWrite su dt.slots_required s).spans_slots =
            dt.slots_required := rfl
        rw [hsp] at hcon
        exact hwb hcon.2
      rw [remove_small_state1 hfind2 hns2, List.map_map]
      apply List.map_congr_left
      intro t ht
      simp only [Function.comp_apply]
      by_cases hsid : t.id = sid
      · have hts : t = s := idInj hnd ht hs_mem (by rw [hsid, hs_id])
        rw [hts]
        rw [if_pos hs_id]
        have hAid : (anchorWrite su dt.slots_required s).id = sid := hs_id
        rw [if_pos hAid, clear_anchor_restore hfnS, if_pos hs_id]
      · rw [if_neg hsid, if_neg hsid, if_neg hsid]
  refine ⟨hcan, update_ok_of_valid hfind hsu htype hcan hns, hmain, ?_⟩
  intro hc hi
  rw [hmain]
  apply map_eq_self_of
  intro t ht
  by_cases hsid : t.id = sid
  · rw [if_pos hsid, hc, hi]
    simp only [setOpt]
  · rw [if_neg hsid]

/-- C3 witness: the amended theorem applied to the seeded three-slot fixture
with the width-3 placement request carrying a label and a custom property. -/
theorem C3_round_trip_witness :
    can_place_device_at_slot exDb exCat 1 1 = true ∧
    (update_panel_slot exDb exCat 1 exPlace3).2.isOk = true ∧
    (remove_device_from_slot (update_panel_slot exDb exCat 1 exPlace3).1 1).1 =
      exDb.map (fun t => if t.id = 1 then
        { t with
            custom_properties :=
              setOpt exPlace3.custom_properties t.custom_properties,
            installed_date := setOpt exPlace3.installed_date t.installed_date }
      else t) ∧
    (exPlace3.custom_properties = none → exPlace3.installed_date = none →
      (remove_device_from_slot (update_panel_slot exDb exCat 1 exPlace3).1 1).1 =
        exDb) :=
  C3_round_trip exDb exCat 1 1 exPlace3 (mkFreeSlot 1 1 1 1 1) ⟨1, 3⟩ 0
    (by decide) (by decide) (by decide) (by decide) (by decide) (by decide)
    (by decide) (by decide)
